import Mathlib

/-!
# The Win32 display driver of the FreeType demo programs (graph/win32/grwin32.c)

A shallow embedding of the driver: the surface record, the refresh routine that
clips the update rectangle and copies the root bitmap into the BGR shadow
bitmap, the resize and initialisation routines, the event loop and the window
procedure.

Conventions of the embedding.

* A C `int` (and a Win32 `LONG`) is an `Int`; every `int` operation that can
  leave the 32-bit range is followed by `wrap32`, the two's complement
  wrap-around.
* A pixel buffer is a `List Nat` of bytes.  A pointer into a buffer is the
  `Int` offset from the buffer's first byte.  Reading or writing at an offset
  outside the buffer is the fault `out_of_bounds`.
* Calls into the window system are recorded as data (the rectangle handed to
  `InvalidateRect`, the messages handed to `DispatchMessage`, the calls a
  window procedure makes).
-/

namespace GrWin32

/-! ## Machine integers and faults -/

/-- Two's complement wrap-around of a 32-bit C `int`. -/
def wrap32 (a : Int) : Int :=
  (a + 2147483648) % 4294967296 - 2147483648

/-- Smallest value of a 32-bit C `int`. -/
def INT_MIN : Int := -2147483648

/-- Largest value of a 32-bit C `int`. -/
def INT_MAX : Int := 2147483647

/-- Whether a value is representable as a 32-bit C `int`. -/
def fits32 (a : Int) : Prop := INT_MIN ≤ a ∧ a ≤ INT_MAX

instance (a : Int) : Decidable (fits32 a) := by
  unfold fits32; exact inferInstance

/-- Ways in which the C code leaves defined behaviour. -/
inductive Fault
  | out_of_bounds
  | division_by_zero
  | out_of_fuel
  deriving DecidableEq, Repr

/-! ## The data model (grobjs.h, wingdi.h) -/

/-- Modelled from the spec: `grPixelMode` of grobjs.h, which is not among the
sources; the spec's fixed set of pixel formats (mono, 8-bit gray, 24-bit RGB,
32-bit RGB). -/
inductive grPixelMode
  | gr_pixel_mode_mono
  | gr_pixel_mode_gray
  | gr_pixel_mode_rgb24
  | gr_pixel_mode_rgb32
  deriving DecidableEq, Repr

open grPixelMode

/-- The `grBitmap` record as the driver uses it: `buffer` holds the bytes the
C pointer of the same name points to. -/
structure grBitmap where
  rows : Int
  width : Int
  pitch : Int
  mode : grPixelMode
  grays : Int
  buffer : List Nat
  deriving DecidableEq, Repr

/-- The `grSurface` base record; of its fields the driver's logic reads only
the bitmap (the others are the method pointers `gr_win32_surface_init` sets). -/
structure grSurface where
  bitmap : grBitmap
  deriving DecidableEq, Repr

/-- The Win32 `RECT`. -/
structure RECT where
  left : Int
  top : Int
  right : Int
  bottom : Int
  deriving DecidableEq, Repr

/-- The fields of the Win32 `BITMAPINFOHEADER` the driver sets. -/
structure BITMAPINFOHEADER where
  biSize : Int
  biWidth : Int
  biHeight : Int
  biPlanes : Int
  biBitCount : Int
  biCompression : Int
  biClrUsed : Int
  deriving DecidableEq, Repr

/-- The Win32 `RGBQUAD`: four bytes. -/
structure RGBQUAD where
  rgbBlue : Nat
  rgbGreen : Nat
  rgbRed : Nat
  rgbReserved : Nat
  deriving DecidableEq, Repr

/-- The `grWin32Surface` record (`grWin32SurfaceRec_`).  `window` is the
window handle, 0 for none; `bmiColors` is the array of 256 palette entries. -/
structure grWin32Surface where
  root : grSurface
  window : Nat
  sIcon : Nat
  bIcon : Nat
  bmiHeader : BITMAPINFOHEADER
  bmiColors : List RGBQUAD
  bgrBitmap : grBitmap
  deriving DecidableEq, Repr

/-! ## Buffer accesses -/

/-- Read the byte at offset `off` of a buffer. -/
def rd (buf : List Nat) (off : Int) : Except Fault Nat :=
  if off < 0 then .error .out_of_bounds
  else match buf[off.toNat]? with
    | some v => .ok v
    | none => .error .out_of_bounds

/-- Write the byte `v` at offset `off` of a buffer. -/
def wr (buf : List Nat) (off : Int) (v : Nat) : Except Fault (List Nat) :=
  if 0 ≤ off ∧ off.toNat < buf.length then .ok (buf.set off.toNat v)
  else .error .out_of_bounds

/-- The state of a copy from the root buffer into the shadow buffer: the
shadow buffer so far, and the offsets read from the root buffer and written in
the shadow buffer so far (latest first). -/
structure CopyState where
  shadow : List Nat
  reads : List Int
  writes : List Int
  deriving DecidableEq, Repr

/-- One byte assignment `write_buffer[write] = read_buffer[read]`. -/
def copy_byte (root : List Nat) (st : CopyState) (write read : Int) :
    Except Fault CopyState :=
  match rd root read with
  | .error e => .error e
  | .ok v =>
    match wr st.shadow write v with
    | .error e => .error e
    | .ok sh => .ok { shadow := sh, reads := read :: st.reads, writes := write :: st.writes }

/-- The C library's `memcpy( write, read, n )` from the root buffer into the
shadow buffer, byte by byte. -/
def memcpy (root : List Nat) : Nat → CopyState → Int → Int → Except Fault CopyState
  | 0, st, _, _ => .ok st
  | n + 1, st, write, read =>
    match copy_byte root st write read with
    | .error e => .error e
    | .ok st1 => memcpy root n st1 (write + 1) (read + 1)

/-! ## gr_win32_surface_refresh_rectangle -/

/-- The inner loop of the 24-bit branch (lines 237-242):
`for ( ; read < read_limit; read += 3, write += 3 )` with the three swapped
byte assignments. -/
def bgr_pixels (root : List Nat) :
    Nat → CopyState → Int → Int → Int → Except Fault CopyState
  | 0, st, read, read_limit, _ =>
    if read < read_limit then .error .out_of_fuel else .ok st
  | fuel + 1, st, read, read_limit, write =>
    if read < read_limit then
      match copy_byte root st write (read + 2) with
      | .error e => .error e
      | .ok st1 =>
        match copy_byte root st1 (write + 1) (read + 1) with
        | .error e => .error e
        | .ok st2 =>
          match copy_byte root st2 (write + 2) read with
          | .error e => .error e
          | .ok st3 => bgr_pixels root fuel st3 (read + 3) read_limit (write + 3)
    else .ok st

/-- The row loop of the 24-bit branch (lines 231-246): `for ( ; h > 0; h-- )`. -/
def bgr_rows (root : List Nat) (read_pitch write_pitch w : Int) :
    Nat → CopyState → Int → Int → Int → Except Fault CopyState
  | 0, st, _, _, h =>
    if h > 0 then .error .out_of_fuel else .ok st
  | fuel + 1, st, read_line, write_line, h =>
    if h > 0 then
      let read := read_line
      let read_limit := read + wrap32 (3 * w)
      let write := write_line
      match bgr_pixels root (read_limit - read).toNat st read read_limit write with
      | .error e => .error e
      | .ok st1 =>
        bgr_rows root read_pitch write_pitch w fuel st1
          (read_line + read_pitch) (write_line + write_pitch) (wrap32 (h - 1))
    else .ok st

/-- The row loop of the gray branch (lines 219-225): `for ( ; h > 0; h-- )`
with one `memcpy` of `w` bytes a row. -/
def gray_rows (root : List Nat) (read_pitch write_pitch w : Int) :
    Nat → CopyState → Int → Int → Int → Except Fault CopyState
  | 0, st, _, _, h =>
    if h > 0 then .error .out_of_fuel else .ok st
  | fuel + 1, st, read_line, write_line, h =>
    if h > 0 then
      match memcpy root w.toNat st write_line read_line with
      | .error e => .error e
      | .ok st1 =>
        gray_rows root read_pitch write_pitch w fuel st1
          (read_line + read_pitch) (write_line + write_pitch) (wrap32 (h - 1))
    else .ok st

/-- The update rectangle after clipping: position and size. -/
structure ClipRect where
  x : Int
  y : Int
  w : Int
  h : Int
  deriving DecidableEq, Repr

/-- The clipping of the update rectangle (lines 155-178) against a bitmap of
the given width and rows; `none` is the early `return` of line 178. -/
def clip_update_rectangle (width rows x y w h : Int) : Option ClipRect :=
  let w1 := if x < 0 then wrap32 (w + x) else w
  let x1 := if x < 0 then 0 else x
  let delta := wrap32 (wrap32 (x1 + w1) - width)
  let w2 := if delta > 0 then wrap32 (w1 - delta) else w1
  let h1 := if y < 0 then wrap32 (h + y) else h
  let y1 := if y < 0 then 0 else y
  let delta := wrap32 (wrap32 (y1 + h1) - rows)
  let h2 := if delta > 0 then wrap32 (h1 - delta) else h1
  if w2 ≤ 0 ∨ h2 ≤ 0 then none
  else some { x := x1, y := y1, w := w2, h := h2 }

/-- What a call of `gr_win32_surface_refresh_rectangle` leaves: the surface,
the rectangle handed to `InvalidateRect` (`none` when the window system is not
called), and the offsets read from the root buffer and written in the shadow
buffer (latest first). -/
structure RefreshResult where
  surface : grWin32Surface
  invalidated : Option RECT
  reads : List Int
  writes : List Int
  deriving DecidableEq, Repr

/-- The driver's `gr_win32_surface_refresh_rectangle` (lines 139-251, with
`SWIZZLE` undefined as in the source). -/
def gr_win32_surface_refresh_rectangle (surface : grWin32Surface)
    (x y w h : Int) : Except Fault RefreshResult :=
  let bitmap := surface.root.bitmap
  match clip_update_rectangle bitmap.width bitmap.rows x y w h with
  | none => .ok { surface := surface, invalidated := none, reads := [], writes := [] }
  | some c =>
    let rect : RECT :=
      { left := c.x, top := c.y, right := wrap32 (c.x + c.w), bottom := wrap32 (c.y + c.h) }
    let read_line : Int := 0
    let read_pitch := bitmap.pitch
    let write_line : Int := 0
    let write_pitch := surface.bgrBitmap.pitch
    let read_line :=
      if read_pitch < 0 then read_line - wrap32 (wrap32 (bitmap.rows - 1) * read_pitch)
      else read_line
    let write_line :=
      if write_pitch < 0 then write_line - wrap32 (wrap32 (bitmap.rows - 1) * write_pitch)
      else write_line
    let read_line := read_line + wrap32 (c.y * read_pitch)
    let write_line := write_line + wrap32 (c.y * write_pitch)
    let st0 : CopyState := { shadow := surface.bgrBitmap.buffer, reads := [], writes := [] }
    let copied :=
      if bitmap.mode = gr_pixel_mode_gray then
        gray_rows bitmap.buffer read_pitch write_pitch c.w c.h.toNat st0
          (read_line + c.x) (write_line + c.x) c.h
      else
        bgr_rows bitmap.buffer read_pitch write_pitch c.w c.h.toNat st0
          (read_line + wrap32 (3 * c.x)) (write_line + wrap32 (3 * c.x)) c.h
    match copied with
    | .error e => .error e
    | .ok st =>
      .ok { surface := { surface with bgrBitmap := { surface.bgrBitmap with buffer := st.shadow } },
            invalidated := some rect,
            reads := st.reads,
            writes := st.writes }

/-- An instance of decidable equality on results, for evaluating the model. -/
instance {ε α : Type} [DecidableEq ε] [DecidableEq α] : DecidableEq (Except ε α)
  | .ok a, .ok b => if h : a = b then isTrue (by rw [h]) else isFalse (by intro h2; cases h2; exact h rfl)
  | .error a, .error b =>
    if h : a = b then isTrue (by rw [h]) else isFalse (by intro h2; cases h2; exact h rfl)
  | .ok _, .error _ => isFalse (by intro h; cases h)
  | .error _, .ok _ => isFalse (by intro h; cases h)

/-! ## Reference notions for the refresh routine -/

/-- Offset, from the first byte of the buffer, of the first byte of logical row
`r` of a bitmap: rows follow each other by `pitch` bytes, and a bitmap of
negative pitch stores its logical row 0 last (the "flow" convention the
routine's lines 206-213 implement). -/
def row_offset (b : grBitmap) (r : Int) : Int :=
  (if b.pitch < 0 then -((b.rows - 1) * b.pitch) else 0) + r * b.pitch

/-- Offset of the first byte of pixel `(c, r)` of a bitmap of `bpp` bytes a pixel. -/
def pixel_offset (b : grBitmap) (bpp c r : Int) : Int :=
  row_offset b r + bpp * c

/-- Within a run of 3-byte pixels, the position of the source byte that the
swap of lines 239-241 stores at position `d`. -/
def swap3 (d : Int) : Int := d + 2 - 2 * (d % 3)

/-- A surface as `gr_win32_surface_init` and `gr_win32_surface_resize` leave it,
for pixels of `bpp` bytes: the shadow bitmap has the root bitmap's width, rows
and pitch, the sizes are 32-bit values, a row of pixels fits in the pitch, and
both buffers hold `rows * |pitch|` bytes, a size below 2^31. -/
def SurfaceOK (s : grWin32Surface) (bpp : Int) : Prop :=
  s.bgrBitmap.width = s.root.bitmap.width ∧
  s.bgrBitmap.rows = s.root.bitmap.rows ∧
  s.bgrBitmap.pitch = s.root.bitmap.pitch ∧
  0 ≤ s.root.bitmap.width ∧ fits32 s.root.bitmap.width ∧
  0 ≤ s.root.bitmap.rows ∧ fits32 s.root.bitmap.rows ∧
  fits32 s.root.bitmap.pitch ∧
  bpp * s.root.bitmap.width ≤ |s.root.bitmap.pitch| ∧
  s.root.bitmap.rows * |s.root.bitmap.pitch| ≤ INT_MAX ∧
  (s.root.bitmap.buffer.length : Int) = s.root.bitmap.rows * |s.root.bitmap.pitch| ∧
  (s.bgrBitmap.buffer.length : Int) = s.root.bitmap.rows * |s.root.bitmap.pitch|

instance (s : grWin32Surface) (bpp : Int) : Decidable (SurfaceOK s bpp) := by
  unfold SurfaceOK; exact inferInstance

/-- The clipping arithmetic of lines 157-175 stays inside the 32-bit range: the
arguments are 32-bit values and neither `x + w`, `y + h`, `x + w - width` nor
`y + h - rows` overflows. -/
def ClipInRange (width rows x y w h : Int) : Prop :=
  fits32 x ∧ fits32 y ∧ fits32 w ∧ fits32 h ∧
  fits32 (x + w) ∧ fits32 (y + h) ∧
  fits32 (x + w - width) ∧ fits32 (y + h - rows)

instance (width rows x y w h : Int) : Decidable (ClipInRange width rows x y w h) := by
  unfold ClipInRange; exact inferInstance

/-- The row loops of lines 219-225 and 231-246 with the work done on one row
left as a parameter; `gray_rows` and `bgr_rows` are its two instances. -/
def copy_rows (op : CopyState → Int → Int → Except Fault CopyState)
    (read_pitch write_pitch : Int) :
    Nat → CopyState → Int → Int → Int → Except Fault CopyState
  | 0, st, _, _, h =>
    if h > 0 then .error .out_of_fuel else .ok st
  | fuel + 1, st, read_line, write_line, h =>
    if h > 0 then
      match op st read_line write_line with
      | .error e => .error e
      | .ok st1 =>
        copy_rows op read_pitch write_pitch fuel st1
          (read_line + read_pitch) (write_line + write_pitch) (wrap32 (h - 1))
    else .ok st

/-- What the work on one row does, as the row loop needs it: started on `L`
bytes inside both buffers it succeeds, keeps the shadow buffer's length, stores
at position `d` of the written run the byte at position `σ d` of the read run,
changes no other byte, and touches only the two runs. -/
def RowSpec (root : List Nat) (op : CopyState → Int → Int → Except Fault CopyState)
    (L : Int) (σ : Int → Int) : Prop :=
  ∀ (st : CopyState) (read write : Int), 0 ≤ read → read + L ≤ root.length →
    0 ≤ write → write + L ≤ st.shadow.length →
    ∃ st1, op st read write = .ok st1 ∧
      st1.shadow.length = st.shadow.length ∧
      (∀ i, rd st1.shadow i =
        if write ≤ i ∧ i < write + L then rd root (read + σ (i - write)) else rd st.shadow i) ∧
      (∀ o ∈ st1.reads, o ∈ st.reads ∨ (read ≤ o ∧ o < read + L)) ∧
      (∀ o ∈ st1.writes, o ∈ st.writes ∨ (write ≤ o ∧ o < write + L))


/-! ## grNewBitmap, gr_win32_surface_resize and gr_win32_surface_init -/

/-- Modelled from the spec: the pitch `grNewBitmap` (grobjs.c, not among the
sources) computes for a bitmap of the given mode and width: `(width+7)/8` for
mono, `width` for gray, `3*width` for 24-bit RGB; for 32-bit RGB, four bytes a
pixel. -/
def grNewBitmap_pitch (pixel_mode : grPixelMode) (width : Int) : Int :=
  match pixel_mode with
  | gr_pixel_mode_mono => (width + 7) / 8
  | gr_pixel_mode_gray => width
  | gr_pixel_mode_rgb24 => 3 * width
  | gr_pixel_mode_rgb32 => 4 * width

/-- Modelled from the spec: `grNewBitmap` of grobjs.c, which is not among the
sources.  `allocs` lists, call by call, whether the coming calls succeed
(`[]`: none does).  A successful call returns 0 and makes `bit` a bitmap of the
given mode, grays, width and rows, of positive pitch `grNewBitmap_pitch`, with
a buffer of `rows * pitch` bytes (taken as zeroes); a failing call returns a
non-zero error code and leaves `bit` as it was. -/
def grNewBitmap (allocs : List Bool) (pixel_mode : grPixelMode)
    (num_grays width height : Int) (bit : grBitmap) : Int × grBitmap × List Bool :=
  match allocs with
  | true :: rest =>
    (0,
     { rows := height, width := width, pitch := grNewBitmap_pitch pixel_mode width,
       mode := pixel_mode, grays := num_grays,
       buffer := List.replicate (height * grNewBitmap_pitch pixel_mode width).toNat 0 },
     rest)
  | false :: rest => (-1, bit, rest)
  | [] => (-1, bit, [])

/-- What `gr_win32_surface_resize` leaves: whether it returned the surface
(`false`: it returned 0), the surface record, and the outcomes of the
allocations still to come. -/
structure ResizeResult where
  returned_surface : Bool
  surface : grWin32Surface
  allocs : List Bool
  deriving DecidableEq, Repr

/-- The driver's `gr_win32_surface_resize` (lines 325-368). -/
def gr_win32_surface_resize (surface : grWin32Surface) (allocs : List Bool)
    (width height : Int) : ResizeResult :=
  let bitmap := surface.root.bitmap
  match grNewBitmap allocs bitmap.mode bitmap.grays width height bitmap with
  | (err, bitmap1, allocs1) =>
    if err ≠ 0 then
      { returned_surface := false,
        surface := { surface with root := { bitmap := bitmap1 } },
        allocs := allocs1 }
    else
      let bitmap2 := { bitmap1 with pitch := wrap32 (-bitmap1.pitch) }
      match grNewBitmap allocs1 bitmap2.mode bitmap2.grays width height surface.bgrBitmap with
      | (err2, bgr1, allocs2) =>
        if err2 ≠ 0 then
          { returned_surface := false,
            surface := { surface with root := { bitmap := bitmap2 }, bgrBitmap := bgr1 },
            allocs := allocs2 }
        else
          let bgr2 := { bgr1 with pitch := wrap32 (-bgr1.pitch) }
          { returned_surface := true,
            surface :=
              { surface with
                root := { bitmap := bitmap2 },
                bgrBitmap := bgr2,
                bmiHeader := { surface.bmiHeader with biWidth := width, biHeight := height } },
            allocs := allocs2 }

/-- The palette loop of the gray case (lines 511-521):
`for ( x = 0; x < count; x++, color++ )`, storing
`(unsigned char)(x*255/(count-1))` in the three colour bytes of entry `x` of
the 256 entries of `bmiColors`. -/
def gray_palette (count : Int) : Nat → Int → List RGBQUAD → Except Fault (List RGBQUAD)
  | 0, x, colors =>
    if x < count then .error .out_of_fuel else .ok colors
  | fuel + 1, x, colors =>
    if x < count then
      if wrap32 (count - 1) = 0 then .error .division_by_zero
      else if x < 0 ∨ 256 ≤ x then .error .out_of_bounds
      else
        let v := (wrap32 (Int.tdiv (wrap32 (x * 255)) (wrap32 (count - 1))) % 256).toNat
        gray_palette count fuel (wrap32 (x + 1))
          (colors.set x.toNat { rgbBlue := v, rgbGreen := v, rgbRed := v, rgbReserved := 0 })
    else .ok colors

/-- What `gr_win32_surface_init` leaves: whether it returned the surface
(`false`: it returned 0), the surface record, the caller's bitmap record (the
routine works on it in place), and the outcomes of the allocations still to
come. -/
structure InitResult where
  returned_surface : Bool
  surface : grWin32Surface
  bitmap : grBitmap
  allocs : List Bool
  deriving DecidableEq, Repr

/-- The driver's `gr_win32_surface_init` (lines 436-567).  `created` is the
handle `CreateWindow` returns, 0 when the window cannot be created. -/
def gr_win32_surface_init (surface : grWin32Surface) (bitmap : grBitmap)
    (allocs : List Bool) (created : Nat) : Except Fault InitResult :=
  match grNewBitmap allocs bitmap.mode bitmap.grays bitmap.width bitmap.rows bitmap with
  | (err, bitmap1, allocs1) =>
    if err ≠ 0 then
      .ok { returned_surface := false, surface := surface, bitmap := bitmap1, allocs := allocs1 }
    else
      let bitmap2 := { bitmap1 with pitch := wrap32 (-bitmap1.pitch) }
      match grNewBitmap allocs1 bitmap2.mode bitmap2.grays bitmap2.width bitmap2.rows
          surface.bgrBitmap with
      | (err2, bgr1, allocs2) =>
        if err2 ≠ 0 then
          .ok { returned_surface := false,
                surface := { surface with bgrBitmap := bgr1 },
                bitmap := bitmap2, allocs := allocs2 }
        else
          let bgr2 := { bgr1 with pitch := wrap32 (-bgr1.pitch) }
          let header : BITMAPINFOHEADER :=
            { surface.bmiHeader with
              biSize := 40, biWidth := bitmap2.width, biHeight := bitmap2.rows, biPlanes := 1 }
          let surface1 := { surface with bgrBitmap := bgr2, bmiHeader := header }
          let switched : Except Fault (Option grWin32Surface) :=
            match bitmap2.mode with
            | gr_pixel_mode_mono =>
              .ok (some { surface1 with
                bmiHeader := { header with biBitCount := 1 },
                bmiColors :=
                  (surface1.bmiColors.set 0
                    { rgbBlue := 255, rgbGreen := 255, rgbRed := 255, rgbReserved := 0 }).set 1
                    { rgbBlue := 0, rgbGreen := 0, rgbRed := 0, rgbReserved := 0 } })
            | gr_pixel_mode_rgb24 =>
              .ok (some { surface1 with
                bmiHeader := { header with biBitCount := 24, biCompression := 0 } })
            | gr_pixel_mode_gray =>
              match gray_palette bitmap2.grays bitmap2.grays.toNat 0 surface1.bmiColors with
              | .error e => .error e
              | .ok colors =>
                .ok (some { surface1 with
                  bmiHeader := { header with biBitCount := 8, biClrUsed := bitmap2.grays },
                  bmiColors := colors })
            | _ => .ok none
          match switched with
          | .error e => .error e
          | .ok none =>
            .ok { returned_surface := false, surface := surface1,
                  bitmap := bitmap2, allocs := allocs2 }
          | .ok (some surface2) =>
            let surface3 := { surface2 with window := created }
            if surface3.window = 0 then
              .ok { returned_surface := false, surface := surface3,
                    bitmap := bitmap2, allocs := allocs2 }
            else
              .ok { returned_surface := true,
                    surface := { surface3 with root := { bitmap := bitmap2 } },
                    bitmap := bitmap2, allocs := allocs2 }


/-! ## Messages, keys and events (winuser.h, grevents.h) -/

/-- Message numbers of the Windows SDK's winuser.h. -/
def WM_CREATE : Nat := 0x0001
/-- Message number of winuser.h. -/
def WM_SIZE : Nat := 0x0005
/-- Message number of winuser.h. -/
def WM_PAINT : Nat := 0x000F
/-- Message number of winuser.h. -/
def WM_CLOSE : Nat := 0x0010
/-- Message number of winuser.h; `GetMessage` returns 0 when it retrieves it. -/
def WM_QUIT : Nat := 0x0012
/-- Message number of winuser.h. -/
def WM_KEYDOWN : Nat := 0x0100
/-- Message number of winuser.h. -/
def WM_CHAR : Nat := 0x0102
/-- Message number of winuser.h. -/
def WM_SYSKEYDOWN : Nat := 0x0104
/-- Message number of winuser.h. -/
def WM_EXITSIZEMOVE : Nat := 0x0232
/-- Message number of winuser.h: the first number free for private messages. -/
def WM_USER : Nat := 0x0400
/-- The driver's custom message (line 62). -/
def WM_RESIZE : Nat := WM_USER + 517

/-- The `wParam` values of `WM_SIZE` (winuser.h). -/
def SIZE_RESTORED : Nat := 0
/-- A `wParam` value of `WM_SIZE` (winuser.h). -/
def SIZE_MAXIMIZED : Nat := 2

/-- Virtual-key codes of winuser.h. -/
def VK_BACK : Nat := 0x08
/-- Virtual-key code of winuser.h. -/
def VK_TAB : Nat := 0x09
/-- Virtual-key code of winuser.h. -/
def VK_RETURN : Nat := 0x0D
/-- Virtual-key code of winuser.h. -/
def VK_ESCAPE : Nat := 0x1B
/-- Virtual-key code of winuser.h. -/
def VK_PRIOR : Nat := 0x21
/-- Virtual-key code of winuser.h. -/
def VK_NEXT : Nat := 0x22
/-- Virtual-key code of winuser.h. -/
def VK_END : Nat := 0x23
/-- Virtual-key code of winuser.h. -/
def VK_HOME : Nat := 0x24
/-- Virtual-key code of winuser.h. -/
def VK_LEFT : Nat := 0x25
/-- Virtual-key code of winuser.h. -/
def VK_UP : Nat := 0x26
/-- Virtual-key code of winuser.h. -/
def VK_RIGHT : Nat := 0x27
/-- Virtual-key code of winuser.h. -/
def VK_DOWN : Nat := 0x28
/-- Virtual-key code of winuser.h. -/
def VK_F1 : Nat := 0x70
/-- Virtual-key code of winuser.h. -/
def VK_F2 : Nat := 0x71
/-- Virtual-key code of winuser.h. -/
def VK_F3 : Nat := 0x72
/-- Virtual-key code of winuser.h. -/
def VK_F4 : Nat := 0x73
/-- Virtual-key code of winuser.h. -/
def VK_F5 : Nat := 0x74
/-- Virtual-key code of winuser.h. -/
def VK_F6 : Nat := 0x75
/-- Virtual-key code of winuser.h. -/
def VK_F7 : Nat := 0x76
/-- Virtual-key code of winuser.h. -/
def VK_F8 : Nat := 0x77
/-- Virtual-key code of winuser.h. -/
def VK_F9 : Nat := 0x78
/-- Virtual-key code of winuser.h. -/
def VK_F10 : Nat := 0x79
/-- Virtual-key code of winuser.h. -/
def VK_F11 : Nat := 0x7A
/-- Virtual-key code of winuser.h. -/
def VK_F12 : Nat := 0x7B

/-- The enumerators of `grKey` the driver names.  Their integer values are
those of grevents.h, which is not among the sources; the routines below take
them as the parameter `code`. -/
inductive grKey
  | grKeyBackSpace
  | grKeyTab
  | grKeyReturn
  | grKeyEsc
  | grKeyHome
  | grKeyLeft
  | grKeyUp
  | grKeyRight
  | grKeyDown
  | grKeyPageUp
  | grKeyPageDown
  | grKeyEnd
  | grKeyF1
  | grKeyF2
  | grKeyF3
  | grKeyF4
  | grKeyF5
  | grKeyF6
  | grKeyF7
  | grKeyF8
  | grKeyF9
  | grKeyF10
  | grKeyF11
  | grKeyF12
  deriving DecidableEq, Repr

open grKey

/-- The event types the driver stores in `grevent->type` (grevents.h). -/
inductive grEventType
  | gr_event_none
  | gr_event_key
  | gr_event_resize
  deriving DecidableEq, Repr

open grEventType

/-- The `grEvent` record; `key` holds the integer value of a `grKey`. -/
structure grEvent where
  type : grEventType
  key : Nat
  x : Int
  y : Int
  deriving DecidableEq, Repr

/-- The `Translator` record (lines 65-70). -/
structure Translator where
  winkey : Nat
  grkey : grKey
  deriving DecidableEq, Repr

/-- The table `key_translators` (lines 72-99). -/
def key_translators : List Translator :=
  [ { winkey := VK_BACK,   grkey := grKeyBackSpace },
    { winkey := VK_TAB,    grkey := grKeyTab },
    { winkey := VK_RETURN, grkey := grKeyReturn },
    { winkey := VK_ESCAPE, grkey := grKeyEsc },
    { winkey := VK_HOME,   grkey := grKeyHome },
    { winkey := VK_LEFT,   grkey := grKeyLeft },
    { winkey := VK_UP,     grkey := grKeyUp },
    { winkey := VK_RIGHT,  grkey := grKeyRight },
    { winkey := VK_DOWN,   grkey := grKeyDown },
    { winkey := VK_PRIOR,  grkey := grKeyPageUp },
    { winkey := VK_NEXT,   grkey := grKeyPageDown },
    { winkey := VK_END,    grkey := grKeyEnd },
    { winkey := VK_F1,     grkey := grKeyF1 },
    { winkey := VK_F2,     grkey := grKeyF2 },
    { winkey := VK_F3,     grkey := grKeyF3 },
    { winkey := VK_F4,     grkey := grKeyF4 },
    { winkey := VK_F5,     grkey := grKeyF5 },
    { winkey := VK_F6,     grkey := grKeyF6 },
    { winkey := VK_F7,     grkey := grKeyF7 },
    { winkey := VK_F8,     grkey := grKeyF8 },
    { winkey := VK_F9,     grkey := grKeyF9 },
    { winkey := VK_F10,    grkey := grKeyF10 },
    { winkey := VK_F11,    grkey := grKeyF11 },
    { winkey := VK_F12,    grkey := grKeyF12 } ]

/-- The Win32 `MSG` record: the window it is for, the message number and its
two parameters. -/
structure MSG where
  hwnd : Nat
  message : Nat
  wParam : Nat
  lParam : Nat
  deriving DecidableEq, Repr

/-- The `LOWORD` of winuser.h. -/
def LOWORD (l : Nat) : Nat := l % 65536

/-- The `HIWORD` of winuser.h. -/
def HIWORD (l : Nat) : Nat := (l / 65536) % 65536

/-- The `MAKELPARAM` of winuser.h, on two `LONG` values. -/
def MAKELPARAM (lo hi : Int) : Nat := (lo % 65536).toNat + 65536 * (hi % 65536).toNat

/-! ## gr_win32_surface_listen_event -/

/-- The search of lines 405-415: the first entry of the table whose `winkey`
is `wParam`. -/
def translate_key (wParam : Nat) : List Translator → Option grKey
  | [] => none
  | entry :: limit =>
    if wParam = entry.winkey then some entry.grkey else translate_key wParam limit

/-- What `gr_win32_surface_listen_event` leaves: the surface, the caller's
event record, whether the routine returned from inside the loop with an event
stored (`false`: `GetMessage` ended the loop), the messages it handed to
`TranslateMessage` and `DispatchMessage` (in order), the messages left in the
queue, and the outcomes of the allocations still to come. -/
structure ListenResult where
  surface : grWin32Surface
  grevent : grEvent
  returned_event : Bool
  dispatched : List MSG
  queue : List MSG
  allocs : List Bool
  deriving DecidableEq, Repr

/-- The driver's `gr_win32_surface_listen_event` (lines 370-434).  The last
argument is the queue: the messages `GetMessage` delivers, in order; after the
last one `GetMessage` returns no message (a value not above 0), as it does on
`WM_QUIT`.  `code` gives the integer values of the `grKey` enumerators. -/
def gr_win32_surface_listen_event (code : grKey → Nat) :
    grWin32Surface → List Bool → grEvent → List MSG → ListenResult
  | surface, allocs, grevent, [] =>
    { surface := surface, grevent := grevent, returned_event := false,
      dispatched := [], queue := [], allocs := allocs }
  | surface, allocs, grevent, msg :: queue =>
    if msg.message = WM_QUIT then
      { surface := surface, grevent := grevent, returned_event := false,
        dispatched := [], queue := queue, allocs := allocs }
    else if msg.message = WM_RESIZE then
      let width : Int := LOWORD msg.lParam
      let height : Int := HIWORD msg.lParam
      if width ≠ surface.root.bitmap.width ∨ height ≠ surface.root.bitmap.rows then
        let resized := gr_win32_surface_resize surface allocs width height
        if resized.returned_surface then
          { surface := resized.surface,
            grevent := { grevent with type := gr_event_resize, x := width, y := height },
            returned_event := true, dispatched := [], queue := queue,
            allocs := resized.allocs }
        else
          let later :=
            gr_win32_surface_listen_event code resized.surface resized.allocs grevent queue
          { later with dispatched := msg :: later.dispatched }
      else
        let later := gr_win32_surface_listen_event code surface allocs grevent queue
        { later with dispatched := msg :: later.dispatched }
    else if msg.message = WM_KEYDOWN ∨ msg.message = WM_SYSKEYDOWN then
      match translate_key msg.wParam key_translators with
      | some grkey =>
        { surface := surface,
          grevent := { grevent with type := gr_event_key, key := code grkey },
          returned_event := true, dispatched := [], queue := queue, allocs := allocs }
      | none =>
        let later := gr_win32_surface_listen_event code surface allocs grevent queue
        { later with dispatched := msg :: later.dispatched }
    else if msg.message = WM_CHAR then
      { surface := surface,
        grevent := { grevent with type := gr_event_key, key := msg.wParam },
        returned_event := true, dispatched := [], queue := queue, allocs := allocs }
    else
      let later := gr_win32_surface_listen_event code surface allocs grevent queue
      { later with dispatched := msg :: later.dispatched }

/-! ## Message_Process -/

/-- The calls into the window system that `Message_Process` makes. -/
inductive WinCall
  | SetProp (handle : Nat)
  | GetProp (handle : Nat)
  | PostMessage (handle mess wParam lParam : Nat)
  | GetClientRect (handle : Nat)
  | BeginPaint (handle : Nat)
  | SetDIBitsToDevice (width height lines : Int) (bits : List Nat)
  | EndPaint (handle : Nat)
  | DefWindowProc (handle mess wParam lParam : Nat)
  deriving DecidableEq, Repr

/-- The driver's window procedure `Message_Process` (lines 574-641): the calls
it makes, in order, and the value it returns.  `surface` is the surface kept in
the window property, `client` the rectangle `GetClientRect` gives and
`def_result` the value `DefWindowProc` returns.  `code` gives the integer
values of the `grKey` enumerators. -/
def Message_Process (code : grKey → Nat) (surface : grWin32Surface) (client : RECT)
    (def_result : Int) (handle mess wParam lParam : Nat) : List WinCall × Int :=
  let first : List WinCall :=
    if mess = WM_CREATE then [WinCall.SetProp handle] else [WinCall.GetProp handle]
  if mess = WM_CLOSE then
    (first ++ [WinCall.PostMessage handle WM_CHAR (code grKeyEsc) 0], 0)
  else if mess = WM_SIZE then
    if wParam = SIZE_RESTORED ∨ wParam = SIZE_MAXIMIZED then
      (first ++ [WinCall.PostMessage handle WM_RESIZE wParam lParam], 0)
    else (first, 0)
  else if mess = WM_EXITSIZEMOVE then
    (first ++ [WinCall.GetClientRect handle,
               WinCall.PostMessage handle WM_RESIZE SIZE_RESTORED
                 (MAKELPARAM client.right client.bottom)], 0)
  else if mess = WM_PAINT then
    (first ++ [WinCall.BeginPaint handle,
               WinCall.SetDIBitsToDevice surface.bmiHeader.biWidth surface.bmiHeader.biHeight
                 surface.bmiHeader.biHeight surface.bgrBitmap.buffer,
               WinCall.EndPaint handle], 0)
  else
    (first ++ [WinCall.DefWindowProc handle mess wParam lParam], def_result)


/-! ## Sample surfaces -/

/-- A surface with the given bitmap geometry and the given bytes in the root
and shadow buffers; the window handle is 1 and the header names the same size. -/
def sample_surface (mode : grPixelMode) (width rows pitch : Int)
    (root_bytes shadow_bytes : List Nat) : grWin32Surface :=
  { root := { bitmap := { rows := rows, width := width, pitch := pitch, mode := mode,
                          grays := 256, buffer := root_bytes } },
    window := 1, sIcon := 0, bIcon := 0,
    bmiHeader := { biSize := 40, biWidth := width, biHeight := rows, biPlanes := 1,
                   biBitCount := 0, biCompression := 0, biClrUsed := 0 },
    bmiColors := List.replicate 256 { rgbBlue := 0, rgbGreen := 0, rgbRed := 0, rgbReserved := 0 },
    bgrBitmap := { rows := rows, width := width, pitch := pitch, mode := mode,
                   grays := 256, buffer := shadow_bytes } }

/-- A 24-bit surface of one pixel. -/
def rgb24_1x1 : grWin32Surface :=
  sample_surface gr_pixel_mode_rgb24 1 1 (-3) [1, 2, 3] [0, 0, 0]

/-- A 24-bit surface of two rows of two pixels. -/
def rgb24_2x2 : grWin32Surface :=
  sample_surface gr_pixel_mode_rgb24 2 2 (-6) [1, 2, 3, 4, 5, 6, 7, 8, 9, 10, 11, 12]
    [0, 0, 0, 0, 0, 0, 0, 0, 0, 0, 0, 0]

/-- A gray surface of one pixel. -/
def gray_1x1 : grWin32Surface :=
  sample_surface gr_pixel_mode_gray 1 1 (-1) [7] [0]

/-- A gray surface of two rows of two pixels. -/
def gray_2x2 : grWin32Surface :=
  sample_surface gr_pixel_mode_gray 2 2 (-2) [1, 2, 3, 4] [0, 0, 0, 0]

/-- A mono surface of one row of eight pixels: one byte a row. -/
def mono_8x1 : grWin32Surface :=
  sample_surface gr_pixel_mode_mono 8 1 (-1) [255] [0]


/-! ## Reference notions for initialisation and resizing -/

/-- The gray level of palette entry `i` of a ramp of `grays` levels:
`floor(255 * i / (grays - 1))`. -/
def gray_ramp (grays i : Nat) : Nat := 255 * i / (grays - 1)


/-- The size agreement that the refresh routine and the `WM_PAINT` handler rely
on: the shadow bitmap has the root bitmap's width, rows, pitch and mode, and
the header's `biWidth` and `biHeight` are the root bitmap's width and rows. -/
def size_agreement (s : grWin32Surface) : Prop :=
  s.bgrBitmap.width = s.root.bitmap.width ∧
  s.bgrBitmap.rows = s.root.bitmap.rows ∧
  s.bgrBitmap.pitch = s.root.bitmap.pitch ∧
  s.bgrBitmap.mode = s.root.bitmap.mode ∧
  s.bmiHeader.biWidth = s.root.bitmap.width ∧
  s.bmiHeader.biHeight = s.root.bitmap.rows

instance (s : grWin32Surface) : Decidable (size_agreement s) := by
  unfold size_agreement; exact inferInstance

/-- A caller's bitmap record asking for a 2x2 surface of the given mode and
number of grays. -/
def sample_bitmap (mode : grPixelMode) (grays : Int) : grBitmap :=
  { rows := 2, width := 2, pitch := 0, mode := mode, grays := grays, buffer := [] }


/-! ## Lemmas on machine integers and clipping -/

/-- A value inside the 32-bit range is left alone by the wrap-around. -/
theorem wrap32_of_fits {a : Int} (h : fits32 a) : wrap32 a = a := by
  unfold fits32 INT_MIN INT_MAX at h
  unfold wrap32
  omega

/-- The clipped position on one axis is `max x 0`. -/
theorem clip_pos (x : Int) : (if x < 0 then 0 else x) = max x 0 := by
  split_ifs <;> omega

/-- The clipped length on one axis, when no operation of lines 157-165 overflows: the
length of the intersection of `[x, x+w)` with `[0, size)`, possibly not positive. -/
theorem clip_len (size x w : Int)
    (hs0 : 0 ≤ size) (hS : fits32 size) (hx : fits32 x) (hw : fits32 w)
    (hxw : fits32 (x + w)) (hxw2 : fits32 (x + w - size)) :
    (if wrap32 (wrap32 ((if x < 0 then 0 else x) + (if x < 0 then wrap32 (w + x) else w)) - size) > 0
      then wrap32 ((if x < 0 then wrap32 (w + x) else w)
        - wrap32 (wrap32 ((if x < 0 then 0 else x) + (if x < 0 then wrap32 (w + x) else w)) - size))
      else (if x < 0 then wrap32 (w + x) else w)) = min (x + w) size - max x 0 := by
  have e1 : wrap32 (w + x) = w + x := wrap32_of_fits (by rw [add_comm]; exact hxw)
  have e2 : (if x < 0 then 0 else x) + (if x < 0 then wrap32 (w + x) else w) = x + w := by
    rw [e1]; split_ifs <;> omega
  rw [e2, wrap32_of_fits hxw, wrap32_of_fits hxw2, e1]
  unfold fits32 INT_MIN INT_MAX at *
  by_cases hd : x + w - size > 0
  · rw [if_pos hd]
    have e3 : (if x < 0 then w + x else w) - (x + w - size) = size - max x 0 := by
      split_ifs <;> omega
    rw [e3, wrap32_of_fits (by unfold fits32 INT_MIN INT_MAX; omega)]
    omega
  · rw [if_neg hd]
    split_ifs <;> omega

/-- The clipping of lines 155-178 when none of its operations overflows: the
intersection with the bitmap, or the early return when that is empty. -/
theorem clip_spec (width rows x y w h : Int)
    (hw0 : 0 ≤ width) (hW : fits32 width) (hr0 : 0 ≤ rows) (hR : fits32 rows)
    (hx : fits32 x) (hy : fits32 y) (hw : fits32 w) (hh : fits32 h)
    (hxw : fits32 (x + w)) (hyh : fits32 (y + h))
    (hxw2 : fits32 (x + w - width)) (hyh2 : fits32 (y + h - rows)) :
    clip_update_rectangle width rows x y w h =
      if max x 0 < min (x + w) width ∧ max y 0 < min (y + h) rows then
        some { x := max x 0, y := max y 0,
               w := min (x + w) width - max x 0, h := min (y + h) rows - max y 0 }
      else none := by
  simp only [clip_update_rectangle]
  rw [clip_len width x w hw0 hW hx hw hxw hxw2, clip_len rows y h hr0 hR hy hh hyh hyh2,
    clip_pos, clip_pos]
  by_cases hc : max x 0 < min (x + w) width ∧ max y 0 < min (y + h) rows
  · rw [if_pos hc, if_neg (by omega)]
  · rw [if_neg hc, if_pos (by omega)]

/-! ## Lemmas on buffer accesses and the copy loops -/

/-- A read inside the buffer succeeds. -/
theorem rd_ok_of_bounds (buf : List Nat) (off : Int) (h0 : 0 ≤ off) (h1 : off < buf.length) :
    ∃ v, rd buf off = .ok v := by
  have hlt : off.toNat < buf.length := by omega
  refine ⟨buf[off.toNat], ?_⟩
  unfold rd
  rw [if_neg (by omega), List.getElem?_eq_getElem hlt]

/-- Reading a buffer after one of its bytes was set. -/
theorem rd_set (buf : List Nat) (off : Int) (v : Nat) (h0 : 0 ≤ off) (h1 : off < buf.length)
    (i : Int) :
    rd (buf.set off.toNat v) i = if i = off then .ok v else rd buf i := by
  have hlt : off.toNat < buf.length := by omega
  unfold rd
  by_cases hi : i < 0
  · rw [if_pos hi, if_pos hi, if_neg (by omega)]
  · rw [if_neg hi, if_neg hi]
    by_cases he : i = off
    · subst he
      rw [if_pos rfl, List.getElem?_set_self hlt]
    · rw [if_neg he, List.getElem?_set_ne (by omega)]

/-- One byte assignment inside both buffers: it succeeds, changes that one shadow
byte and records the two offsets. -/
theorem copy_byte_spec (root : List Nat) (st : CopyState) (write read : Int)
    (hr0 : 0 ≤ read) (hr1 : read < root.length)
    (hw0 : 0 ≤ write) (hw1 : write < st.shadow.length) :
    ∃ st1, copy_byte root st write read = .ok st1 ∧
      st1.shadow.length = st.shadow.length ∧
      (∀ i, rd st1.shadow i = if i = write then rd root read else rd st.shadow i) ∧
      st1.reads = read :: st.reads ∧ st1.writes = write :: st.writes := by
  obtain ⟨v, hv⟩ := rd_ok_of_bounds root read hr0 hr1
  have hlt : write.toNat < st.shadow.length := by omega
  refine ⟨{ shadow := st.shadow.set write.toNat v, reads := read :: st.reads,
            writes := write :: st.writes }, ?_, ?_, ?_, rfl, rfl⟩
  · unfold copy_byte wr
    rw [hv]
    simp only [hw0, hlt, and_self, if_true]
  · simp
  · intro i
    simp only
    rw [rd_set _ _ _ hw0 hw1, hv]

/-- The `memcpy` of `n` bytes inside both buffers copies them position by position. -/
theorem memcpy_spec (root : List Nat) (n : Nat) :
    ∀ (st : CopyState) (read write : Int), 0 ≤ read → read + n ≤ root.length →
    0 ≤ write → write + n ≤ st.shadow.length →
    ∃ st1, memcpy root n st write read = .ok st1 ∧
      st1.shadow.length = st.shadow.length ∧
      (∀ i, rd st1.shadow i =
        if write ≤ i ∧ i < write + n then rd root (read + (i - write)) else rd st.shadow i) ∧
      (∀ o ∈ st1.reads, o ∈ st.reads ∨ (read ≤ o ∧ o < read + n)) ∧
      (∀ o ∈ st1.writes, o ∈ st.writes ∨ (write ≤ o ∧ o < write + n)) := by
  induction n with
  | zero =>
    intro st read write _ _ _ _
    refine ⟨st, rfl, rfl, ?_, fun o ho => Or.inl ho, fun o ho => Or.inl ho⟩
    intro i
    rw [if_neg]
    push_cast; omega
  | succ n ih =>
    intro st read write hr0 hr1 hw0 hw1
    push_cast at hr1 hw1
    obtain ⟨st1, e1, len1, c1, r1, w1⟩ :=
      copy_byte_spec root st write read hr0 (by omega) hw0 (by omega)
    obtain ⟨st2, e2, len2, c2, r2, w2⟩ :=
      ih st1 (read + 1) (write + 1) (by omega) (by omega) (by omega) (by rw [len1]; omega)
    refine ⟨st2, ?_, by rw [len2, len1], ?_, ?_, ?_⟩
    · simp only [memcpy, e1]
      exact e2
    · intro i
      rw [c2 i, c1 i]
      push_cast
      by_cases h1 : write + 1 ≤ i ∧ i < write + 1 + n
      · rw [if_pos h1, if_pos (by omega)]
        congr 1; omega
      · rw [if_neg h1]
        by_cases h2 : i = write
        · subst h2
          rw [if_pos rfl, if_pos (by omega)]
          congr 1; omega
        · rw [if_neg h2, if_neg (by omega)]
    · intro o ho
      rcases r2 o ho with h1 | h1
      · rw [r1] at h1
        rcases List.mem_cons.mp h1 with h2 | h2
        · right; push_cast; omega
        · exact Or.inl h2
      · right; push_cast; omega
    · intro o ho
      rcases w2 o ho with h1 | h1
      · rw [w1] at h1
        rcases List.mem_cons.mp h1 with h2 | h2
        · right; push_cast; omega
        · exact Or.inl h2
      · right; push_cast; omega

/-- The pixel loop over `n` pixels inside both buffers stores each pixel's three
bytes in reverse order; `n` units of fuel are enough. -/
theorem bgr_pixels_spec (root : List Nat) (n : Nat) :
    ∀ (fuel : Nat) (st : CopyState) (read write : Int), n ≤ fuel →
    0 ≤ read → read + 3 * n ≤ root.length →
    0 ≤ write → write + 3 * n ≤ st.shadow.length →
    ∃ st1, bgr_pixels root fuel st read (read + 3 * n) write = .ok st1 ∧
      st1.shadow.length = st.shadow.length ∧
      (∀ i, rd st1.shadow i =
        if write ≤ i ∧ i < write + 3 * n then rd root (read + swap3 (i - write))
        else rd st.shadow i) ∧
      (∀ o ∈ st1.reads, o ∈ st.reads ∨ (read ≤ o ∧ o < read + 3 * n)) ∧
      (∀ o ∈ st1.writes, o ∈ st.writes ∨ (write ≤ o ∧ o < write + 3 * n)) := by
  induction n with
  | zero =>
    intro fuel st read write _ _ _ _ _
    refine ⟨st, ?_, rfl, ?_, fun o ho => Or.inl ho, fun o ho => Or.inl ho⟩
    · cases fuel <;> simp [bgr_pixels]
    · intro i
      rw [if_neg]
      push_cast; omega
  | succ n ih =>
    intro fuel st read write hfuel hr0 hr1 hw0 hw1
    obtain ⟨fuel, rfl⟩ : ∃ f, fuel = f + 1 := ⟨fuel - 1, by omega⟩
    push_cast at hr1 hw1
    obtain ⟨st1, e1, len1, c1, r1, w1⟩ :=
      copy_byte_spec root st write (read + 2) (by omega) (by omega) hw0 (by omega)
    obtain ⟨st2, e2, len2, c2, r2, w2⟩ :=
      copy_byte_spec root st1 (write + 1) (read + 1) (by omega) (by omega) (by omega)
        (by rw [len1]; omega)
    obtain ⟨st3, e3, len3, c3, r3, w3⟩ :=
      copy_byte_spec root st2 (write + 2) read (by omega) (by omega) (by omega)
        (by rw [len2, len1]; omega)
    obtain ⟨st4, e4, len4, c4, r4, w4⟩ :=
      ih fuel st3 (read + 3) (write + 3) (by omega) (by omega) (by omega) (by omega)
        (by rw [len3, len2, len1]; omega)
    have hlim : read + 3 * ((n : Int) + 1) = read + 3 + 3 * n := by ring
    refine ⟨st4, ?_, by rw [len4, len3, len2, len1], ?_, ?_, ?_⟩
    · push_cast
      have hlt : read < read + 3 * ((n : Int) + 1) := by omega
      simp only [bgr_pixels, hlt, if_true, e1, e2, e3]
      rw [hlim]
      exact e4
    · intro i
      rw [c4 i, c3 i, c2 i, c1 i]
      push_cast
      unfold swap3
      by_cases h1 : write + 3 ≤ i ∧ i < write + 3 + 3 * n
      · rw [if_pos h1, if_pos (by omega)]
        congr 1; omega
      · rw [if_neg h1]
        by_cases h2 : i = write + 2
        · subst h2
          rw [if_pos rfl, if_pos (by omega)]
          congr 1; omega
        · rw [if_neg h2]
          by_cases h3 : i = write + 1
          · subst h3
            rw [if_pos rfl, if_pos (by omega)]
            congr 1; omega
          · rw [if_neg h3]
            by_cases h4 : i = write
            · subst h4
              rw [if_pos rfl, if_pos (by omega)]
              congr 1; omega
            · rw [if_neg h4, if_neg (by omega)]
    · intro o ho
      rcases r4 o ho with h1 | h1
      · rw [r3, r2, r1] at h1
        simp only [List.mem_cons] at h1
        rcases h1 with h2 | h2 | h2 | h2
        · right; push_cast; omega
        · right; push_cast; omega
        · right; push_cast; omega
        · exact Or.inl h2
      · right; push_cast; omega
    · intro o ho
      rcases w4 o ho with h1 | h1
      · rw [w3, w2, w1] at h1
        simp only [List.mem_cons] at h1
        rcases h1 with h2 | h2 | h2 | h2
        · right; push_cast; omega
        · right; push_cast; omega
        · right; push_cast; omega
        · exact Or.inl h2
      · right; push_cast; omega

/-- The row loop over `n` rows whose byte runs lie inside the buffers and, in the
shadow buffer, do not overlap: it succeeds with `n` units of fuel, row `j` of
the shadow holds what the row work stores, and nothing else changes. -/
theorem copy_rows_spec (root : List Nat) (op : CopyState → Int → Int → Except Fault CopyState)
    (L : Int) (σ : Int → Int) (hop : RowSpec root op L σ) (rp wp : Int) (n : Nat) :
    ∀ (fuel : Nat) (st : CopyState) (R W h : Int), h = n → n ≤ fuel → h ≤ INT_MAX →
      (∀ j : Int, 0 ≤ j → j < n → 0 ≤ R + j * rp ∧ R + j * rp + L ≤ root.length) →
      (∀ j : Int, 0 ≤ j → j < n → 0 ≤ W + j * wp ∧ W + j * wp + L ≤ st.shadow.length) →
      (∀ j j2 : Int, 0 ≤ j → j < j2 → j2 < n →
        W + j * wp + L ≤ W + j2 * wp ∨ W + j2 * wp + L ≤ W + j * wp) →
      ∃ st1, copy_rows op rp wp fuel st R W h = .ok st1 ∧
        st1.shadow.length = st.shadow.length ∧
        (∀ j : Int, 0 ≤ j → j < n → ∀ i, W + j * wp ≤ i → i < W + j * wp + L →
          rd st1.shadow i = rd root (R + j * rp + σ (i - (W + j * wp)))) ∧
        (∀ i, (∀ j : Int, 0 ≤ j → j < n → i < W + j * wp ∨ W + j * wp + L ≤ i) →
          rd st1.shadow i = rd st.shadow i) ∧
        (∀ o ∈ st1.reads, o ∈ st.reads ∨
          ∃ j : Int, 0 ≤ j ∧ j < n ∧ R + j * rp ≤ o ∧ o < R + j * rp + L) ∧
        (∀ o ∈ st1.writes, o ∈ st.writes ∨
          ∃ j : Int, 0 ≤ j ∧ j < n ∧ W + j * wp ≤ o ∧ o < W + j * wp + L) := by
  induction n with
  | zero =>
    intro fuel st R W h hh _ _ _ _ _
    have h0 : ¬ h > 0 := by simp at hh; omega
    refine ⟨st, ?_, rfl, ?_, ?_, ?_, ?_⟩
    · cases fuel <;> simp [copy_rows, h0]
    · intro j hj0 hj1; simp at hj1; omega
    · intro i _; rfl
    · intro o ho; exact Or.inl ho
    · intro o ho; exact Or.inl ho
  | succ n ih =>
    intro fuel st R W h hh hfuel hmax hR hW hD
    obtain ⟨fuel, rfl⟩ : ∃ f, fuel = f + 1 := ⟨fuel - 1, by omega⟩
    have hpos : h > 0 := by rw [hh]; push_cast; omega
    have hR0 := hR 0 le_rfl (by push_cast; omega)
    have hW0 := hW 0 le_rfl (by push_cast; omega)
    simp only [zero_mul, add_zero] at hR0 hW0
    obtain ⟨st1, e1, len1, c1, r1, w1⟩ := hop st R W hR0.1 hR0.2 hW0.1 hW0.2
    have hwrap : wrap32 (h - 1) = (n : Int) := by
      rw [wrap32_of_fits]
      · rw [hh]; push_cast; omega
      · unfold fits32 INT_MIN INT_MAX at *; omega
    have hR' : ∀ j : Int, 0 ≤ j → j < n →
        0 ≤ R + rp + j * rp ∧ R + rp + j * rp + L ≤ root.length := by
      intro j hj0 hj1
      have := hR (j + 1) (by omega) (by push_cast; omega)
      rw [add_mul, one_mul] at this
      constructor <;> linarith [this.1, this.2]
    have hW' : ∀ j : Int, 0 ≤ j → j < n →
        0 ≤ W + wp + j * wp ∧ W + wp + j * wp + L ≤ st1.shadow.length := by
      intro j hj0 hj1
      have := hW (j + 1) (by omega) (by push_cast; omega)
      rw [add_mul, one_mul] at this
      rw [len1]
      constructor <;> linarith [this.1, this.2]
    have hD' : ∀ j j2 : Int, 0 ≤ j → j < j2 → j2 < n →
        W + wp + j * wp + L ≤ W + wp + j2 * wp ∨ W + wp + j2 * wp + L ≤ W + wp + j * wp := by
      intro j j2 hj0 hj1 hj2
      have := hD (j + 1) (j2 + 1) (by omega) (by omega) (by push_cast; omega)
      rw [add_mul, one_mul, add_mul, one_mul] at this
      rcases this with h1 | h1
      · left; linarith
      · right; linarith
    obtain ⟨st2, e2, len2, c2, u2, r2, w2⟩ :=
      ih fuel st1 (R + rp) (W + wp) (wrap32 (h - 1)) hwrap (by omega)
        (by rw [hwrap]; unfold INT_MAX at *; omega) hR' hW' hD'
    refine ⟨st2, ?_, by rw [len2, len1], ?_, ?_, ?_, ?_⟩
    · simp only [copy_rows, hpos, if_true, e1]
      exact e2
    · intro j hj0 hj1 i hi0 hi1
      by_cases hj : j = 0
      · subst hj
        simp only [zero_mul, add_zero] at hi0 hi1 ⊢
        rw [u2 i, c1 i, if_pos ⟨hi0, hi1⟩]
        intro j hj0 hj1
        have := hD 0 (j + 1) le_rfl (by omega) (by push_cast; omega)
        rw [add_mul, one_mul, zero_mul, add_zero] at this
        rcases this with h1 | h1
        · left; linarith
        · right; linarith
      · have := c2 (j - 1) (by omega) (by push_cast at hj1; omega) i
          (by rw [sub_mul, one_mul]; linarith) (by rw [sub_mul, one_mul]; linarith)
        rw [this]
        congr 1
        ring_nf
    · intro i hi
      rw [u2 i, c1 i, if_neg]
      · have := hi 0 le_rfl (by push_cast; omega)
        simp only [zero_mul, add_zero] at this
        omega
      · intro j hj0 hj1
        have := hi (j + 1) (by omega) (by push_cast; omega)
        rw [add_mul, one_mul] at this
        rcases this with h1 | h1
        · left; linarith
        · right; linarith
    · intro o ho
      rcases r2 o ho with h1 | ⟨j, hj0, hj1, ha, hb⟩
      · rcases r1 o h1 with h2 | h2
        · exact Or.inl h2
        · exact Or.inr ⟨0, le_rfl, by push_cast; omega, by simpa using h2.1, by simpa using h2.2⟩
      · refine Or.inr ⟨j + 1, by omega, by push_cast; omega, ?_, ?_⟩
        · rw [add_mul, one_mul]; linarith
        · rw [add_mul, one_mul]; linarith
    · intro o ho
      rcases w2 o ho with h1 | ⟨j, hj0, hj1, ha, hb⟩
      · rcases w1 o h1 with h2 | h2
        · exact Or.inl h2
        · exact Or.inr ⟨0, le_rfl, by push_cast; omega, by simpa using h2.1, by simpa using h2.2⟩
      · refine Or.inr ⟨j + 1, by omega, by push_cast; omega, ?_, ?_⟩
        · rw [add_mul, one_mul]; linarith
        · rw [add_mul, one_mul]; linarith

/-- The 24-bit row loop is `copy_rows` around the pixel loop. -/
theorem bgr_rows_eq (root : List Nat) (rp wp w : Int) :
    ∀ (fuel : Nat) (st : CopyState) (rl wl h : Int),
    bgr_rows root rp wp w fuel st rl wl h =
      copy_rows (fun st r wr =>
        bgr_pixels root (r + wrap32 (3 * w) - r).toNat st r (r + wrap32 (3 * w)) wr)
        rp wp fuel st rl wl h := by
  intro fuel
  induction fuel with
  | zero => intro st rl wl h; simp only [bgr_rows, copy_rows]
  | succ fuel ih =>
    intro st rl wl h
    simp only [bgr_rows, copy_rows]
    split_ifs
    · cases hb : bgr_pixels root (rl + wrap32 (3 * w) - rl).toNat st rl (rl + wrap32 (3 * w)) wl with
      | error e => rfl
      | ok st1 => exact ih _ _ _ _
    · rfl

/-- The gray row loop is `copy_rows` around `memcpy`. -/
theorem gray_rows_eq (root : List Nat) (rp wp w : Int) :
    ∀ (fuel : Nat) (st : CopyState) (rl wl h : Int),
    gray_rows root rp wp w fuel st rl wl h =
      copy_rows (fun st r wr => memcpy root w.toNat st wr r) rp wp fuel st rl wl h := by
  intro fuel
  induction fuel with
  | zero => intro st rl wl h; simp only [gray_rows, copy_rows]
  | succ fuel ih =>
    intro st rl wl h
    simp only [gray_rows, copy_rows]
    split_ifs
    · cases hb : memcpy root w.toNat st wl rl with
      | error e => rfl
      | ok st1 => exact ih _ _ _ _
    · rfl

/-- The pixel loop of one row of `w` pixels meets `RowSpec` with the swap. -/
theorem bgr_op_spec (root : List Nat) (w : Int) (hw0 : 0 ≤ w) (h3 : fits32 (3 * w)) :
    RowSpec root (fun st r wr =>
        bgr_pixels root (r + wrap32 (3 * w) - r).toNat st r (r + wrap32 (3 * w)) wr)
      (3 * w) swap3 := by
  intro st read write hr0 hr1 hw0' hw1
  obtain ⟨n, rfl⟩ : ∃ n : Nat, w = n := ⟨w.toNat, by omega⟩
  rw [wrap32_of_fits h3]
  exact bgr_pixels_spec root n _ st read write (by omega) hr0 hr1 hw0' hw1

/-- The `memcpy` of one row of `w` bytes meets `RowSpec` with the identity. -/
theorem gray_op_spec (root : List Nat) (w : Int) (hw0 : 0 ≤ w) :
    RowSpec root (fun st r wr => memcpy root w.toNat st wr r) w (fun d => d) := by
  intro st read write hr0 hr1 hw0' hw1
  obtain ⟨n, rfl⟩ : ∃ n : Nat, w = n := ⟨w.toNat, by omega⟩
  simp only [Int.toNat_ofNat]
  exact memcpy_spec root n st read write hr0 hr1 hw0' hw1

/-- Rows of a bitmap lie inside a buffer of `rows * |pitch|` bytes. -/
theorem row_offset_bounds (b : grBitmap) (r L : Int) (hr0 : 0 ≤ r) (hr1 : r < b.rows)
    (hL : L ≤ |b.pitch|) :
    0 ≤ row_offset b r ∧ row_offset b r + L ≤ b.rows * |b.pitch| := by
  unfold row_offset
  by_cases hp : b.pitch < 0
  · rw [if_pos hp, abs_of_neg hp] at *
    have h1 : 0 ≤ (b.rows - 1 - r) * (-b.pitch) := mul_nonneg (by omega) (by omega)
    have h2 : 0 ≤ r * (-b.pitch) := mul_nonneg hr0 (by omega)
    constructor <;> nlinarith
  · rw [if_neg hp, abs_of_nonneg (by omega)] at *
    have h1 : 0 ≤ (b.rows - 1 - r) * b.pitch := mul_nonneg (by omega) (by omega)
    have h2 : 0 ≤ r * b.pitch := mul_nonneg hr0 (by omega)
    constructor <;> nlinarith

/-- Logical rows follow each other by `pitch` bytes. -/
theorem row_offset_add (b : grBitmap) (r j : Int) :
    row_offset b (r + j) = row_offset b r + j * b.pitch := by
  unfold row_offset; ring

/-- Runs of at most `|pitch|` bytes at the start of two different rows do not overlap. -/
theorem rows_disjoint (p L j j2 : Int) (hL : L ≤ |p|) (hj : j < j2) :
    j * p + L ≤ j2 * p ∨ j2 * p + L ≤ j * p := by
  by_cases hp : p < 0
  · rw [abs_of_neg hp] at hL
    right
    have : 0 ≤ (j2 - j - 1) * (-p) := mul_nonneg (by omega) (by omega)
    nlinarith
  · rw [abs_of_nonneg (by omega)] at hL
    left
    have : 0 ≤ (j2 - j - 1) * p := mul_nonneg (by omega) (by omega)
    nlinarith

/-- A row index times the pitch stays inside the 32-bit range when the buffer size does. -/
theorem scaled_fits (rows p a : Int) (hmax : rows * |p| ≤ INT_MAX)
    (ha0 : 0 ≤ a) (ha1 : a < rows) : fits32 (a * p) := by
  have h1 : |a * p| ≤ rows * |p| := by
    rw [abs_mul, abs_of_nonneg ha0]
    exact mul_le_mul_of_nonneg_right (by omega) (abs_nonneg p)
  have h2 := abs_le.mp h1
  unfold fits32 INT_MIN
  unfold INT_MAX at *
  constructor <;> omega

/-- The row loop started on the clipped rectangle `[X0, X1) x [Y0, Y1)` of a bitmap
whose buffers hold `rows * |pitch|` bytes: what it stores, what it leaves, and
which offsets it touches, row by row. -/
theorem copy_rows_geom (b : grBitmap) (shadow : List Nat)
    (op : CopyState → Int → Int → Except Fault CopyState) (bpp : Int) (σ : Int → Int)
    (X0 X1 Y0 Y1 : Int)
    (hlenr : (b.buffer.length : Int) = b.rows * |b.pitch|)
    (hlens : (shadow.length : Int) = b.rows * |b.pitch|)
    (hX0 : 0 ≤ X0) (hX1 : X1 ≤ b.width)
    (hY0 : 0 ≤ Y0) (hY : Y0 < Y1) (hY1 : Y1 ≤ b.rows)
    (hbpp : 0 ≤ bpp) (hpitch : bpp * b.width ≤ |b.pitch|) (hmax : Y1 - Y0 ≤ INT_MAX)
    (hop : RowSpec b.buffer op (bpp * (X1 - X0)) σ) :
    ∃ st, copy_rows op b.pitch b.pitch (Y1 - Y0).toNat
        { shadow := shadow, reads := [], writes := [] }
        (row_offset b Y0 + bpp * X0) (row_offset b Y0 + bpp * X0) (Y1 - Y0) = .ok st ∧
      st.shadow.length = shadow.length ∧
      (∀ r, Y0 ≤ r → r < Y1 → ∀ d, 0 ≤ d → d < bpp * (X1 - X0) →
        rd st.shadow (row_offset b r + bpp * X0 + d) =
          rd b.buffer (row_offset b r + bpp * X0 + σ d)) ∧
      (∀ i, (∀ r, Y0 ≤ r → r < Y1 →
          i < row_offset b r + bpp * X0 ∨ row_offset b r + bpp * X1 ≤ i) →
        rd st.shadow i = rd shadow i) ∧
      (∀ o ∈ st.reads, ∃ r, Y0 ≤ r ∧ r < Y1 ∧
        row_offset b r + bpp * X0 ≤ o ∧ o < row_offset b r + bpp * X1) ∧
      (∀ o ∈ st.writes, ∃ r, Y0 ≤ r ∧ r < Y1 ∧
        row_offset b r + bpp * X0 ≤ o ∧ o < row_offset b r + bpp * X1) := by
  have hb0 : 0 ≤ bpp * X0 := mul_nonneg hbpp hX0
  have hb1 : bpp * X1 ≤ bpp * b.width := mul_le_mul_of_nonneg_left hX1 hbpp
  have hL : bpp * (X1 - X0) = bpp * X1 - bpp * X0 := by ring
  have hn : ((Y1 - Y0).toNat : Int) = Y1 - Y0 := Int.toNat_of_nonneg (by omega)
  have hbound : ∀ j : Int, 0 ≤ j → j < ((Y1 - Y0).toNat : Int) →
      0 ≤ row_offset b Y0 + bpp * X0 + j * b.pitch ∧
      row_offset b Y0 + bpp * X0 + j * b.pitch + bpp * (X1 - X0) ≤ b.rows * |b.pitch| := by
    intro j hj0 hj1
    have := row_offset_bounds b (Y0 + j) (bpp * X1) (by omega) (by omega) (by omega)
    rw [row_offset_add] at this
    rw [hL]
    constructor <;> linarith [this.1, this.2]
  obtain ⟨st, e, len, c, u, rl, wl⟩ :=
    copy_rows_spec b.buffer op (bpp * (X1 - X0)) σ hop b.pitch b.pitch (Y1 - Y0).toNat
      (Y1 - Y0).toNat { shadow := shadow, reads := [], writes := [] }
      (row_offset b Y0 + bpp * X0) (row_offset b Y0 + bpp * X0) (Y1 - Y0)
      hn.symm le_rfl hmax
      (by intro j hj0 hj1; rw [hlenr]; exact hbound j hj0 hj1)
      (by intro j hj0 hj1; simp only; rw [hlens]; exact hbound j hj0 hj1)
      (by
        intro j j2 _ hj _
        rcases rows_disjoint b.pitch (bpp * (X1 - X0)) j j2 (by rw [hL]; omega) hj with h1 | h1
        · left; linarith
        · right; linarith)
  refine ⟨st, e, len, ?_, ?_, ?_, ?_⟩
  · intro r hr0 hr1 d hd0 hd1
    have := c (r - Y0) (by omega) (by omega) (row_offset b r + bpp * X0 + d)
      (by have := row_offset_add b Y0 (r - Y0)
          rw [show Y0 + (r - Y0) = r by ring] at this
          linarith)
      (by have := row_offset_add b Y0 (r - Y0)
          rw [show Y0 + (r - Y0) = r by ring] at this
          linarith)
    rw [this]
    have h2 := row_offset_add b Y0 (r - Y0)
    rw [show Y0 + (r - Y0) = r by ring] at h2
    congr 1
    rw [h2]
    have : row_offset b Y0 + (r - Y0) * b.pitch + bpp * X0 + d -
        (row_offset b Y0 + bpp * X0 + (r - Y0) * b.pitch) = d := by ring
    rw [this]; ring
  · intro i hi
    rw [u i]
    intro j hj0 hj1
    have := hi (Y0 + j) (by omega) (by omega)
    rw [row_offset_add] at this
    rcases this with h1 | h1
    · left; linarith
    · right; linarith
  · intro o ho
    rcases rl o ho with h1 | ⟨j, hj0, hj1, ha, hb⟩
    · simp at h1
    · refine ⟨Y0 + j, by omega, by omega, ?_, ?_⟩
      · rw [row_offset_add]; linarith
      · rw [row_offset_add]; linarith
  · intro o ho
    rcases wl o ho with h1 | ⟨j, hj0, hj1, ha, hb⟩
    · simp at h1
    · refine ⟨Y0 + j, by omega, by omega, ?_, ?_⟩
      · rw [row_offset_add]; linarith
      · rw [row_offset_add]; linarith

/-- The line pointer the routine computes in lines 206-213 is the offset of logical
row `Y0`. -/
theorem line_start (b : grBitmap) (p Y0 : Int) (hp : p = b.pitch)
    (hY0 : 0 ≤ Y0) (hY1 : Y0 < b.rows) (hR : fits32 b.rows)
    (hmax : b.rows * |b.pitch| ≤ INT_MAX) :
    (if p < 0 then (0 : Int) - wrap32 (wrap32 (b.rows - 1) * p) else 0) + wrap32 (Y0 * p)
      = row_offset b Y0 := by
  subst hp
  have h1 : wrap32 (b.rows - 1) = b.rows - 1 := by
    apply wrap32_of_fits
    unfold fits32 INT_MIN INT_MAX at *; omega
  rw [h1, wrap32_of_fits (scaled_fits b.rows b.pitch (b.rows - 1) hmax (by omega) (by omega)),
    wrap32_of_fits (scaled_fits b.rows b.pitch Y0 hmax hY0 hY1)]
  unfold row_offset
  split_ifs <;> ring

/-- The refresh routine on a well-formed surface, for in-range arguments: it
returns, changes only the shadow buffer, hands the intersection to
`InvalidateRect`, stores in each clipped row the bytes of the root row (swapped
by `σ` inside each pixel), leaves every other byte, and touches only the bytes
of the clipped rows. -/
theorem refresh_spec (s : grWin32Surface) (bpp : Int) (σ : Int → Int) (x y w h : Int)
    (hok : SurfaceOK s bpp)
    (hclip : ClipInRange s.root.bitmap.width s.root.bitmap.rows x y w h)
    (hmode : (s.root.bitmap.mode = gr_pixel_mode_gray ∧ bpp = 1 ∧ σ = fun d => d) ∨
      (s.root.bitmap.mode ≠ gr_pixel_mode_gray ∧ bpp = 3 ∧ σ = swap3)) :
    ∃ res, gr_win32_surface_refresh_rectangle s x y w h = .ok res ∧
      res.surface = { s with bgrBitmap :=
        { s.bgrBitmap with buffer := res.surface.bgrBitmap.buffer } } ∧
      res.surface.bgrBitmap.buffer.length = s.bgrBitmap.buffer.length ∧
      res.invalidated =
        (if max x 0 < min (x + w) s.root.bitmap.width ∧
            max y 0 < min (y + h) s.root.bitmap.rows then
          some { left := max x 0, top := max y 0,
                 right := min (x + w) s.root.bitmap.width,
                 bottom := min (y + h) s.root.bitmap.rows }
        else none) ∧
      (∀ r, max y 0 ≤ r → r < min (y + h) s.root.bitmap.rows →
        ∀ d, 0 ≤ d → d < bpp * (min (x + w) s.root.bitmap.width - max x 0) →
        rd res.surface.bgrBitmap.buffer (row_offset s.root.bitmap r + bpp * max x 0 + d) =
          rd s.root.bitmap.buffer (row_offset s.root.bitmap r + bpp * max x 0 + σ d)) ∧
      (∀ i, (∀ r, max y 0 ≤ r → r < min (y + h) s.root.bitmap.rows →
          i < row_offset s.root.bitmap r + bpp * max x 0 ∨
          row_offset s.root.bitmap r + bpp * min (x + w) s.root.bitmap.width ≤ i) →
        rd res.surface.bgrBitmap.buffer i = rd s.bgrBitmap.buffer i) ∧
      (∀ o ∈ res.reads, ∃ r, max y 0 ≤ r ∧ r < min (y + h) s.root.bitmap.rows ∧
        row_offset s.root.bitmap r + bpp * max x 0 ≤ o ∧
        o < row_offset s.root.bitmap r + bpp * min (x + w) s.root.bitmap.width) ∧
      (∀ o ∈ res.writes, ∃ r, max y 0 ≤ r ∧ r < min (y + h) s.root.bitmap.rows ∧
        row_offset s.root.bitmap r + bpp * max x 0 ≤ o ∧
        o < row_offset s.root.bitmap r + bpp * min (x + w) s.root.bitmap.width) := by
  obtain ⟨gw, gr, gp, hw0, hW, hr0, hR, hP, hpitch, hmax, hlenr, hlens⟩ := hok
  obtain ⟨fx, fy, fw, fh, fxw, fyh, fxw2, fyh2⟩ := hclip
  have hclipeq := clip_spec s.root.bitmap.width s.root.bitmap.rows x y w h
    hw0 hW hr0 hR fx fy fw fh fxw fyh fxw2 fyh2
  unfold gr_win32_surface_refresh_rectangle
  simp only []
  rw [hclipeq]
  by_cases hne : max x 0 < min (x + w) s.root.bitmap.width ∧
      max y 0 < min (y + h) s.root.bitmap.rows
  · rw [if_pos hne, if_pos hne]
    simp only []
    have hX0 : 0 ≤ max x 0 := by omega
    have hX1 : min (x + w) s.root.bitmap.width ≤ s.root.bitmap.width := by omega
    have hY0 : 0 ≤ max y 0 := by omega
    have hY1 : min (y + h) s.root.bitmap.rows ≤ s.root.bitmap.rows := by omega
    have hbpp : 0 ≤ bpp := by rcases hmode with ⟨_, hb, _⟩ | ⟨_, hb, _⟩ <;> omega
    have hmaxh : min (y + h) s.root.bitmap.rows - max y 0 ≤ INT_MAX := by
      unfold fits32 INT_MIN INT_MAX at *; omega
    have hright : wrap32 (max x 0 + (min (x + w) s.root.bitmap.width - max x 0)) =
        min (x + w) s.root.bitmap.width := by
      rw [show max x 0 + (min (x + w) s.root.bitmap.width - max x 0) =
        min (x + w) s.root.bitmap.width by ring]
      apply wrap32_of_fits
      unfold fits32 INT_MIN INT_MAX at *; omega
    have hbottom : wrap32 (max y 0 + (min (y + h) s.root.bitmap.rows - max y 0)) =
        min (y + h) s.root.bitmap.rows := by
      rw [show max y 0 + (min (y + h) s.root.bitmap.rows - max y 0) =
        min (y + h) s.root.bitmap.rows by ring]
      apply wrap32_of_fits
      unfold fits32 INT_MIN INT_MAX at *; omega
    rw [hright, hbottom, gp,
      line_start s.root.bitmap s.root.bitmap.pitch (max y 0) rfl hY0 (by omega) hR hmax]
    rcases hmode with ⟨hm, hb, hs⟩ | ⟨hm, hb, hs⟩
    · subst hb hs
      rw [if_pos hm, gray_rows_eq]
      obtain ⟨st, e, len, c, u, rl, wl⟩ := copy_rows_geom s.root.bitmap s.bgrBitmap.buffer
        (fun st r wr => memcpy s.root.bitmap.buffer
          (min (x + w) s.root.bitmap.width - max x 0).toNat st wr r) 1 (fun d => d)
        (max x 0) (min (x + w) s.root.bitmap.width) (max y 0) (min (y + h) s.root.bitmap.rows)
        hlenr hlens hX0 hX1 hY0 hne.2 hY1 hbpp hpitch hmaxh
        (by rw [one_mul]; exact gray_op_spec _ _ (by omega))
      simp only [one_mul] at e c u rl wl ⊢
      rw [e]
      exact ⟨_, rfl, rfl, len, rfl, c, u, rl, wl⟩
    · subst hb hs
      have hpp : |s.root.bitmap.pitch| ≤ s.root.bitmap.rows * |s.root.bitmap.pitch| := by
        have h1 : 0 ≤ (s.root.bitmap.rows - 1) * |s.root.bitmap.pitch| :=
          mul_nonneg (by omega) (abs_nonneg _)
        nlinarith
      have h3x : wrap32 (3 * max x 0) = 3 * max x 0 := by
        apply wrap32_of_fits
        unfold fits32 INT_MIN INT_MAX at *; omega
      have h3w : fits32 (3 * (min (x + w) s.root.bitmap.width - max x 0)) := by
        unfold fits32 INT_MIN INT_MAX at *; omega
      rw [if_neg hm, bgr_rows_eq, h3x]
      obtain ⟨st, e, len, c, u, rl, wl⟩ := copy_rows_geom s.root.bitmap s.bgrBitmap.buffer
        (fun st r wr => bgr_pixels s.root.bitmap.buffer
          (r + wrap32 (3 * (min (x + w) s.root.bitmap.width - max x 0)) - r).toNat st r
          (r + wrap32 (3 * (min (x + w) s.root.bitmap.width - max x 0))) wr) 3 swap3
        (max x 0) (min (x + w) s.root.bitmap.width) (max y 0) (min (y + h) s.root.bitmap.rows)
        hlenr hlens hX0 hX1 hY0 hne.2 hY1 hbpp hpitch hmaxh
        (bgr_op_spec _ _ (by omega) h3w)
      rw [e]
      exact ⟨_, rfl, rfl, len, rfl, c, u, rl, wl⟩
  · rw [if_neg hne]
    simp only []
    refine ⟨_, rfl, rfl, rfl, by rw [if_neg hne], ?_, ?_, ?_, ?_⟩
    · intro r hr0 hr1 d hd0 hd1
      exfalso
      by_cases hx : max x 0 < min (x + w) s.root.bitmap.width
      · omega
      · have : bpp * (min (x + w) s.root.bitmap.width - max x 0) ≤ 0 := by
          apply mul_nonpos_of_nonneg_of_nonpos
          · rcases hmode with ⟨_, hb, _⟩ | ⟨_, hb, _⟩ <;> omega
          · omega
        omega
    · intro i _; rfl
    · intro o ho; simp at ho
    · intro o ho; simp at ho

/-! ## The refresh routine: the claims -/

/-- C1 (amended): for every 24-bit RGB surface as init and resize build it (the
shadow bitmap has the root bitmap's width, rows and pitch, `3 * width ≤ |pitch|`,
both buffers hold `rows * |pitch|` bytes, fewer than 2^31) and for every 32-bit
`x, y, w, h` for which none of `x + w`, `y + h`, `x + w - width`,
`y + h - rows` overflows, `gr_win32_surface_refresh_rectangle` returns; the
root bitmap and every field of the surface but the shadow buffer are unchanged;
for every pixel `(c, r)` of the intersection of the requested rectangle with
the bitmap the three shadow bytes are the root's three bytes of that pixel in
reverse order; every shadow byte outside those pixels keeps its value. -/
theorem refresh_rectangle_rgb24_reference (s : grWin32Surface) (x y w h : Int)
    (hmode : s.root.bitmap.mode = gr_pixel_mode_rgb24)
    (hok : SurfaceOK s 3)
    (hclip : ClipInRange s.root.bitmap.width s.root.bitmap.rows x y w h) :
    ∃ res, gr_win32_surface_refresh_rectangle s x y w h = .ok res ∧
      res.surface.root = s.root ∧
      res.surface = { s with bgrBitmap :=
        { s.bgrBitmap with buffer := res.surface.bgrBitmap.buffer } } ∧
      res.surface.bgrBitmap.buffer.length = s.bgrBitmap.buffer.length ∧
      (∀ c r, max x 0 ≤ c → c < min (x + w) s.root.bitmap.width →
        max y 0 ≤ r → r < min (y + h) s.root.bitmap.rows →
        ∃ b0 b1 b2,
          rd s.root.bitmap.buffer (pixel_offset s.root.bitmap 3 c r) = .ok b0 ∧
          rd s.root.bitmap.buffer (pixel_offset s.root.bitmap 3 c r + 1) = .ok b1 ∧
          rd s.root.bitmap.buffer (pixel_offset s.root.bitmap 3 c r + 2) = .ok b2 ∧
          rd res.surface.bgrBitmap.buffer (pixel_offset s.root.bitmap 3 c r) = .ok b2 ∧
          rd res.surface.bgrBitmap.buffer (pixel_offset s.root.bitmap 3 c r + 1) = .ok b1 ∧
          rd res.surface.bgrBitmap.buffer (pixel_offset s.root.bitmap 3 c r + 2) = .ok b0) ∧
      (∀ i, (∀ c r, max x 0 ≤ c → c < min (x + w) s.root.bitmap.width →
          max y 0 ≤ r → r < min (y + h) s.root.bitmap.rows →
          i < pixel_offset s.root.bitmap 3 c r ∨ pixel_offset s.root.bitmap 3 c r + 3 ≤ i) →
        rd res.surface.bgrBitmap.buffer i = rd s.bgrBitmap.buffer i) := by
  obtain ⟨res, e, hsurf, hlen, _, hc, hu, _, _⟩ :=
    refresh_spec s 3 swap3 x y w h hok hclip
      (Or.inr ⟨by rw [hmode]; decide, rfl, rfl⟩)
  obtain ⟨_, _, _, hw0, _, hr0, _, _, hpitch, _, hlenr, _⟩ := hok
  refine ⟨res, e, by rw [hsurf], hsurf, hlen, ?_, ?_⟩
  · intro c r hc0 hc1 hr0' hr1
    have hb := row_offset_bounds s.root.bitmap r (3 * s.root.bitmap.width)
      (by omega) (by omega) hpitch
    rw [← hlenr] at hb
    have h0 := hc r hr0' hr1 (3 * (c - max x 0)) (by omega) (by omega)
    have h1 := hc r hr0' hr1 (3 * (c - max x 0) + 1) (by omega) (by omega)
    have h2 := hc r hr0' hr1 (3 * (c - max x 0) + 2) (by omega) (by omega)
    unfold pixel_offset
    unfold swap3 at h0 h1 h2
    generalize row_offset s.root.bitmap r = R at *
    obtain ⟨b0, e0⟩ := rd_ok_of_bounds s.root.bitmap.buffer (R + 3 * c) (by omega) (by omega)
    obtain ⟨b1, e1⟩ := rd_ok_of_bounds s.root.bitmap.buffer (R + 3 * c + 1) (by omega) (by omega)
    obtain ⟨b2, e2⟩ := rd_ok_of_bounds s.root.bitmap.buffer (R + 3 * c + 2) (by omega) (by omega)
    refine ⟨b0, b1, b2, e0, e1, e2, ?_, ?_, ?_⟩
    · rw [show R + 3 * c = R + 3 * max x 0 + 3 * (c - max x 0) by omega, h0, ← e2]
      congr 1; omega
    · rw [show R + 3 * c + 1 = R + 3 * max x 0 + (3 * (c - max x 0) + 1) by omega, h1, ← e1]
      congr 1; omega
    · rw [show R + 3 * c + 2 = R + 3 * max x 0 + (3 * (c - max x 0) + 2) by omega, h2, ← e0]
      congr 1; omega
  · intro i hi
    apply hu
    intro r hr0' hr1
    by_contra hcon
    push_neg at hcon
    have := hi (max x 0 + (i - (row_offset s.root.bitmap r + 3 * max x 0)) / 3) r
      (by omega) (by omega) hr0' hr1
    unfold pixel_offset at this
    omega

/-- C6 (amended): for every 8-bit gray surface as init and resize build it (the
shadow bitmap has the root bitmap's width, rows and pitch, `width ≤ |pitch|`,
both buffers hold `rows * |pitch|` bytes, fewer than 2^31) and for every 32-bit
`x, y, w, h` for which none of `x + w`, `y + h`, `x + w - width`,
`y + h - rows` overflows, `gr_win32_surface_refresh_rectangle` returns; the
shadow byte of every pixel `(c, r)` of the intersection of the requested
rectangle with the bitmap equals the root's byte of that pixel, and every other
shadow byte (and the rest of the surface) is unchanged. -/
theorem refresh_rectangle_gray_copy (s : grWin32Surface) (x y w h : Int)
    (hmode : s.root.bitmap.mode = gr_pixel_mode_gray)
    (hok : SurfaceOK s 1)
    (hclip : ClipInRange s.root.bitmap.width s.root.bitmap.rows x y w h) :
    ∃ res, gr_win32_surface_refresh_rectangle s x y w h = .ok res ∧
      res.surface.root = s.root ∧
      res.surface = { s with bgrBitmap :=
        { s.bgrBitmap with buffer := res.surface.bgrBitmap.buffer } } ∧
      res.surface.bgrBitmap.buffer.length = s.bgrBitmap.buffer.length ∧
      (∀ c r, max x 0 ≤ c → c < min (x + w) s.root.bitmap.width →
        max y 0 ≤ r → r < min (y + h) s.root.bitmap.rows →
        ∃ v,
          rd s.root.bitmap.buffer (pixel_offset s.root.bitmap 1 c r) = .ok v ∧
          rd res.surface.bgrBitmap.buffer (pixel_offset s.root.bitmap 1 c r) = .ok v) ∧
      (∀ i, (∀ c r, max x 0 ≤ c → c < min (x + w) s.root.bitmap.width →
          max y 0 ≤ r → r < min (y + h) s.root.bitmap.rows →
          i ≠ pixel_offset s.root.bitmap 1 c r) →
        rd res.surface.bgrBitmap.buffer i = rd s.bgrBitmap.buffer i) := by
  obtain ⟨res, e, hsurf, hlen, _, hc, hu, _, _⟩ :=
    refresh_spec s 1 (fun d => d) x y w h hok hclip (Or.inl ⟨hmode, rfl, rfl⟩)
  obtain ⟨_, _, _, hw0, _, hr0, _, _, hpitch, _, hlenr, _⟩ := hok
  refine ⟨res, e, by rw [hsurf], hsurf, hlen, ?_, ?_⟩
  · intro c r hc0 hc1 hr0' hr1
    have hb := row_offset_bounds s.root.bitmap r (1 * s.root.bitmap.width)
      (by omega) (by omega) hpitch
    rw [← hlenr] at hb
    have h0 := hc r hr0' hr1 (c - max x 0) (by omega) (by omega)
    unfold pixel_offset
    simp only at h0
    generalize row_offset s.root.bitmap r = R at *
    obtain ⟨v, e0⟩ := rd_ok_of_bounds s.root.bitmap.buffer (R + 1 * c) (by omega) (by omega)
    refine ⟨v, e0, ?_⟩
    rw [show R + 1 * c = R + 1 * max x 0 + (c - max x 0) by omega, h0, ← e0]
    congr 1; omega
  · intro i hi
    apply hu
    intro r hr0' hr1
    by_contra hcon
    push_neg at hcon
    have := hi (max x 0 + (i - (row_offset s.root.bitmap r + 1 * max x 0))) r
      (by omega) (by omega) hr0' hr1
    unfold pixel_offset at this
    omega

/-- C7 (amended): for every gray or 24-bit RGB surface whose root and shadow
bitmaps have equal width and rows, the negative pitch `-(bpp * width)` that
init and resize give them (`bpp` = 1 for gray, 3 for rgb24) and buffers of
`rows * |pitch|` bytes (fewer than 2^31), and for every 32-bit `x, y, w, h` for
which none of `x + w`, `y + h`, `x + w - width`, `y + h - rows` overflows:
`gr_win32_surface_refresh_rectangle` returns without a fault, every offset it
reads in the root buffer and every offset it writes in the shadow buffer lies
in `[0, rows * |pitch|)`, and belongs to a clipped logical row `r`, accessed at
memory row `rows - 1 - r`, inside the `|pitch|` bytes of that row. -/
theorem refresh_rectangle_accesses_in_bounds (s : grWin32Surface) (bpp x y w h : Int)
    (hmode : (s.root.bitmap.mode = gr_pixel_mode_gray ∧ bpp = 1) ∨
      (s.root.bitmap.mode = gr_pixel_mode_rgb24 ∧ bpp = 3))
    (hok : SurfaceOK s bpp)
    (hneg : s.root.bitmap.pitch = -(bpp * s.root.bitmap.width))
    (hclip : ClipInRange s.root.bitmap.width s.root.bitmap.rows x y w h) :
    ∃ res, gr_win32_surface_refresh_rectangle s x y w h = .ok res ∧
      (∀ o ∈ res.reads,
        0 ≤ o ∧ o < (s.root.bitmap.buffer.length : Int) ∧
        o < s.root.bitmap.rows * |s.root.bitmap.pitch| ∧
        ∃ r, max y 0 ≤ r ∧ r < min (y + h) s.root.bitmap.rows ∧
          (s.root.bitmap.rows - 1 - r) * |s.root.bitmap.pitch| ≤ o ∧
          o < (s.root.bitmap.rows - 1 - r) * |s.root.bitmap.pitch| + |s.root.bitmap.pitch|) ∧
      (∀ o ∈ res.writes,
        0 ≤ o ∧ o < (s.bgrBitmap.buffer.length : Int) ∧
        o < s.bgrBitmap.rows * |s.bgrBitmap.pitch| ∧
        ∃ r, max y 0 ≤ r ∧ r < min (y + h) s.root.bitmap.rows ∧
          (s.bgrBitmap.rows - 1 - r) * |s.bgrBitmap.pitch| ≤ o ∧
          o < (s.bgrBitmap.rows - 1 - r) * |s.bgrBitmap.pitch| + |s.bgrBitmap.pitch|) := by
  have hbpp : 0 ≤ bpp := by rcases hmode with ⟨_, hb⟩ | ⟨_, hb⟩ <;> omega
  obtain ⟨res, e, _, _, _, _, _, hr, hw⟩ :=
    refresh_spec s bpp (if bpp = 1 then fun d => d else swap3) x y w h hok hclip
      (by
        rcases hmode with ⟨hm, hb⟩ | ⟨hm, hb⟩
        · exact Or.inl ⟨hm, hb, by rw [if_pos hb]⟩
        · exact Or.inr ⟨by rw [hm]; decide, hb, by rw [if_neg (by omega)]⟩)
  obtain ⟨gw, gr, gp, hw0, _, hr0, _, _, hpitch, _, hlenr, hlens⟩ := hok
  have key : ∀ o : Int, (∃ r, max y 0 ≤ r ∧ r < min (y + h) s.root.bitmap.rows ∧
        row_offset s.root.bitmap r + bpp * max x 0 ≤ o ∧
        o < row_offset s.root.bitmap r + bpp * min (x + w) s.root.bitmap.width) →
      0 ≤ o ∧ o < s.root.bitmap.rows * |s.root.bitmap.pitch| ∧
      ∃ r, max y 0 ≤ r ∧ r < min (y + h) s.root.bitmap.rows ∧
        (s.root.bitmap.rows - 1 - r) * |s.root.bitmap.pitch| ≤ o ∧
        o < (s.root.bitmap.rows - 1 - r) * |s.root.bitmap.pitch| + |s.root.bitmap.pitch| := by
    intro o ⟨r, hr0', hr1, ha, hb⟩
    have hb0 : 0 ≤ bpp * max x 0 := mul_nonneg hbpp (by omega)
    have hb1 : bpp * min (x + w) s.root.bitmap.width ≤ bpp * s.root.bitmap.width :=
      mul_le_mul_of_nonneg_left (by omega) hbpp
    have hbw : 0 ≤ bpp * s.root.bitmap.width := mul_nonneg hbpp hw0
    have habs : |s.root.bitmap.pitch| = bpp * s.root.bitmap.width := by
      rw [hneg, abs_neg, abs_of_nonneg hbw]
    have hbd := row_offset_bounds s.root.bitmap r (bpp * s.root.bitmap.width)
      (by omega) (by omega) hpitch
    have hro : row_offset s.root.bitmap r =
        (s.root.bitmap.rows - 1 - r) * |s.root.bitmap.pitch| := by
      unfold row_offset
      by_cases hp : s.root.bitmap.pitch < 0
      · rw [if_pos hp, abs_of_neg hp]; ring
      · have hz : s.root.bitmap.pitch = 0 := by omega
        rw [if_neg hp, hz]; simp
    refine ⟨by omega, by omega, r, hr0', hr1, by rw [← hro]; omega, by rw [← hro, habs]; omega⟩
  refine ⟨res, e, ?_, ?_⟩
  · intro o ho
    obtain ⟨h1, h2, h3⟩ := key o (hr o ho)
    exact ⟨h1, by rw [hlenr]; exact h2, h2, h3⟩
  · intro o ho
    obtain ⟨h1, h2, h3⟩ := key o (hw o ho)
    rw [gr, gp]
    exact ⟨h1, by rw [hlens]; exact h2, h2, h3⟩

/-- C2 (amended): for every bitmap size (`width ≥ 0`, `rows ≥ 0`) and every
32-bit `x, y, w, h` for which none of `x + w`, `y + h`, `x + w - width`,
`y + h - rows` overflows: when the intersection of the requested rectangle with
the bitmap rectangle is not empty, the clipping yields exactly that
intersection and a call that returns has handed it to `InvalidateRect`
(left = `max x 0`, top = `max y 0`, right = `min (x+w) width`,
bottom = `min (y+h) rows`); when it is empty, the routine returns without
copying a byte and without invalidating any window area; and on a well-formed
gray or 3-byte surface the call does return, hands over that rectangle (none
when it is empty) and writes only bytes of the rectangle's pixels. -/
theorem refresh_rectangle_clips_to_intersection (s : grWin32Surface) (x y w h : Int)
    (hw0 : 0 ≤ s.root.bitmap.width) (hW : fits32 s.root.bitmap.width)
    (hr0 : 0 ≤ s.root.bitmap.rows) (hR : fits32 s.root.bitmap.rows)
    (hclip : ClipInRange s.root.bitmap.width s.root.bitmap.rows x y w h) :
    ((max x 0 < min (x + w) s.root.bitmap.width ∧ max y 0 < min (y + h) s.root.bitmap.rows) →
      clip_update_rectangle s.root.bitmap.width s.root.bitmap.rows x y w h =
        some { x := max x 0, y := max y 0,
               w := min (x + w) s.root.bitmap.width - max x 0,
               h := min (y + h) s.root.bitmap.rows - max y 0 } ∧
      ∀ res, gr_win32_surface_refresh_rectangle s x y w h = .ok res →
        res.invalidated = some { left := max x 0, top := max y 0,
                                 right := min (x + w) s.root.bitmap.width,
                                 bottom := min (y + h) s.root.bitmap.rows }) ∧
    (¬ (max x 0 < min (x + w) s.root.bitmap.width ∧
        max y 0 < min (y + h) s.root.bitmap.rows) →
      clip_update_rectangle s.root.bitmap.width s.root.bitmap.rows x y w h = none ∧
      gr_win32_surface_refresh_rectangle s x y w h =
        .ok { surface := s, invalidated := none, reads := [], writes := [] }) ∧
    (∀ bpp : Int, SurfaceOK s bpp →
      ((s.root.bitmap.mode = gr_pixel_mode_gray ∧ bpp = 1) ∨
        (s.root.bitmap.mode ≠ gr_pixel_mode_gray ∧ bpp = 3)) →
      ∃ res, gr_win32_surface_refresh_rectangle s x y w h = .ok res ∧
        res.invalidated =
          (if max x 0 < min (x + w) s.root.bitmap.width ∧
              max y 0 < min (y + h) s.root.bitmap.rows then
            some { left := max x 0, top := max y 0,
                   right := min (x + w) s.root.bitmap.width,
                   bottom := min (y + h) s.root.bitmap.rows }
          else none) ∧
        (∀ o ∈ res.writes, ∃ r, max y 0 ≤ r ∧ r < min (y + h) s.root.bitmap.rows ∧
          pixel_offset s.root.bitmap bpp (max x 0) r ≤ o ∧
          o < pixel_offset s.root.bitmap bpp (min (x + w) s.root.bitmap.width) r)) := by
  have hthird : ∀ bpp : Int, SurfaceOK s bpp →
      ((s.root.bitmap.mode = gr_pixel_mode_gray ∧ bpp = 1) ∨
        (s.root.bitmap.mode ≠ gr_pixel_mode_gray ∧ bpp = 3)) →
      ∃ res, gr_win32_surface_refresh_rectangle s x y w h = .ok res ∧
        res.invalidated =
          (if max x 0 < min (x + w) s.root.bitmap.width ∧
              max y 0 < min (y + h) s.root.bitmap.rows then
            some { left := max x 0, top := max y 0,
                   right := min (x + w) s.root.bitmap.width,
                   bottom := min (y + h) s.root.bitmap.rows }
          else none) ∧
        (∀ o ∈ res.writes, ∃ r, max y 0 ≤ r ∧ r < min (y + h) s.root.bitmap.rows ∧
          pixel_offset s.root.bitmap bpp (max x 0) r ≤ o ∧
          o < pixel_offset s.root.bitmap bpp (min (x + w) s.root.bitmap.width) r) := by
    intro bpp hok hmode
    obtain ⟨res, e, _, _, hinv, _, _, _, hwr⟩ :=
      refresh_spec s bpp (if bpp = 1 then fun d => d else swap3) x y w h hok hclip
        (by
          rcases hmode with ⟨hm, hb⟩ | ⟨hm, hb⟩
          · exact Or.inl ⟨hm, hb, by rw [if_pos hb]⟩
          · exact Or.inr ⟨hm, hb, by rw [if_neg (by omega)]⟩)
    exact ⟨res, e, hinv, hwr⟩
  obtain ⟨fx, fy, fw, fh, fxw, fyh, fxw2, fyh2⟩ := hclip
  have hclipeq := clip_spec s.root.bitmap.width s.root.bitmap.rows x y w h
    hw0 hW hr0 hR fx fy fw fh fxw fyh fxw2 fyh2
  refine ⟨?_, ?_, hthird⟩
  · intro hne
    rw [if_pos hne] at hclipeq
    refine ⟨hclipeq, ?_⟩
    intro res hres
    unfold gr_win32_surface_refresh_rectangle at hres
    simp only [] at hres
    rw [hclipeq] at hres
    simp only [] at hres
    have hright : wrap32 (max x 0 + (min (x + w) s.root.bitmap.width - max x 0)) =
        min (x + w) s.root.bitmap.width := by
      rw [show max x 0 + (min (x + w) s.root.bitmap.width - max x 0) =
        min (x + w) s.root.bitmap.width by ring]
      apply wrap32_of_fits
      unfold fits32 INT_MIN INT_MAX at *; omega
    have hbottom : wrap32 (max y 0 + (min (y + h) s.root.bitmap.rows - max y 0)) =
        min (y + h) s.root.bitmap.rows := by
      rw [show max y 0 + (min (y + h) s.root.bitmap.rows - max y 0) =
        min (y + h) s.root.bitmap.rows by ring]
      apply wrap32_of_fits
      unfold fits32 INT_MIN INT_MAX at *; omega
    rw [hright, hbottom] at hres
    split at hres
    · cases hres
    · cases hres; rfl
  · intro hne
    rw [if_neg hne] at hclipeq
    refine ⟨hclipeq, ?_⟩
    unfold gr_win32_surface_refresh_rectangle
    simp only []
    rw [hclipeq]

/-- C1, witness: the amended statement applies to a 2x2 surface and a rectangle
that sticks out of it on three sides. -/
theorem refresh_rectangle_rgb24_reference_witness :
    SurfaceOK rgb24_2x2 3 ∧ ClipInRange 2 2 (-1) 1 5 5 ∧
    ∃ res, gr_win32_surface_refresh_rectangle rgb24_2x2 (-1) 1 5 5 = .ok res ∧
      res.surface.root = rgb24_2x2.root ∧
      res.surface.bgrBitmap.buffer.length = rgb24_2x2.bgrBitmap.buffer.length := by
  refine ⟨by decide, by decide, ?_⟩
  obtain ⟨res, e, hroot, _, hlen, _, _⟩ :=
    refresh_rectangle_rgb24_reference rgb24_2x2 (-1) 1 5 5 (by decide) (by decide) (by decide)
  exact ⟨res, e, hroot, hlen⟩

/-- C1, counterexample: on a well-formed 1x1 surface the call with
`x = INT_MAX, w = 2` (where `x + w` overflows) is not clipped and reads outside
the root buffer; on a well-formed 2x2 surface the call with `x = INT_MIN`,
`w = 0` (an empty rectangle: no column lies in it) rewrites the shadow bytes
of logical row 0. -/
theorem refresh_rectangle_rgb24_counterexample :
    rgb24_1x1.root.bitmap.mode = gr_pixel_mode_rgb24 ∧ SurfaceOK rgb24_1x1 3 ∧
    gr_win32_surface_refresh_rectangle rgb24_1x1 2147483647 0 2 1 = .error .out_of_bounds ∧
    SurfaceOK rgb24_2x2 3 ∧
    (∀ c : Int, ¬ ((-2147483648 : Int) ≤ c ∧ c < -2147483648 + 0)) ∧
    ∃ res, gr_win32_surface_refresh_rectangle rgb24_2x2 (-2147483648) 0 0 1 = .ok res ∧
      rgb24_2x2.bgrBitmap.buffer = [0, 0, 0, 0, 0, 0, 0, 0, 0, 0, 0, 0] ∧
      res.surface.bgrBitmap.buffer = [0, 0, 0, 0, 0, 0, 9, 8, 7, 12, 11, 10] := by
  refine ⟨by decide, by decide, by decide, by decide, by intro c; omega, _, rfl, rfl, rfl⟩

/-- C6, witness: the amended statement applies to a 2x2 gray surface. -/
theorem refresh_rectangle_gray_copy_witness :
    SurfaceOK gray_2x2 1 ∧ ClipInRange 2 2 1 (-1) 5 2 ∧
    ∃ res, gr_win32_surface_refresh_rectangle gray_2x2 1 (-1) 5 2 = .ok res ∧
      res.surface.root = gray_2x2.root ∧
      res.surface.bgrBitmap.buffer.length = gray_2x2.bgrBitmap.buffer.length := by
  refine ⟨by decide, by decide, ?_⟩
  obtain ⟨res, e, hroot, _, hlen, _, _⟩ :=
    refresh_rectangle_gray_copy gray_2x2 1 (-1) 5 2 (by decide) (by decide) (by decide)
  exact ⟨res, e, hroot, hlen⟩

/-- C6, counterexample: on a well-formed 1x1 gray surface the call with
`x = INT_MAX, w = 2` is not clipped and reads outside the root buffer; on a
well-formed 2x2 gray surface the call with `y = INT_MIN, h = 0` (an empty
rectangle: no row lies in it) rewrites shadow bytes of column 0. -/
theorem refresh_rectangle_gray_counterexample :
    gray_1x1.root.bitmap.mode = gr_pixel_mode_gray ∧ SurfaceOK gray_1x1 1 ∧
    gr_win32_surface_refresh_rectangle gray_1x1 2147483647 0 2 1 = .error .out_of_bounds ∧
    SurfaceOK gray_2x2 1 ∧
    (∀ r : Int, ¬ ((-2147483648 : Int) ≤ r ∧ r < -2147483648 + 0)) ∧
    ∃ res, gr_win32_surface_refresh_rectangle gray_2x2 0 (-2147483648) 1 0 = .ok res ∧
      gray_2x2.bgrBitmap.buffer = [0, 0, 0, 0] ∧
      res.surface.bgrBitmap.buffer = [1, 0, 3, 0] := by
  refine ⟨by decide, by decide, by decide, by decide, by intro c; omega, _, rfl, rfl, rfl⟩

/-- C7, witness: the amended statement applies to a 2x2 24-bit surface. -/
theorem refresh_rectangle_accesses_in_bounds_witness :
    SurfaceOK rgb24_2x2 3 ∧ ClipInRange 2 2 1 0 1 7 ∧
    ∃ res, gr_win32_surface_refresh_rectangle rgb24_2x2 1 0 1 7 = .ok res ∧
      ∀ o ∈ res.writes, 0 ≤ o ∧ o < (rgb24_2x2.bgrBitmap.buffer.length : Int) := by
  refine ⟨by decide, by decide, ?_⟩
  obtain ⟨res, e, _, hw⟩ :=
    refresh_rectangle_accesses_in_bounds rgb24_2x2 3 1 0 1 7 (Or.inr ⟨by decide, rfl⟩)
      (by decide) (by decide) (by decide)
  exact ⟨res, e, fun o ho => ⟨(hw o ho).1, (hw o ho).2.1⟩⟩

/-- C7, counterexample: on a mono surface of 8x1 pixels, with the pitch
`(8+7)/8 = 1` negated and one-byte buffers, the in-range call `(0, 0, 8, 1)`
accesses a byte outside the buffer (the routine treats every mode but gray as
3 bytes a pixel); and on a well-formed 1x1 24-bit surface so does the call
with `y = INT_MAX, h = 2`, where `y + h` overflows. -/
theorem refresh_rectangle_accesses_counterexample :
    mono_8x1.root.bitmap.mode = gr_pixel_mode_mono ∧
    mono_8x1.root.bitmap.pitch = -((8 + 7) / 8) ∧
    mono_8x1.root.bitmap.buffer.length = 1 ∧ mono_8x1.bgrBitmap.buffer.length = 1 ∧
    gr_win32_surface_refresh_rectangle mono_8x1 0 0 8 1 = .error .out_of_bounds ∧
    rgb24_1x1.root.bitmap.mode = gr_pixel_mode_rgb24 ∧ SurfaceOK rgb24_1x1 3 ∧
    gr_win32_surface_refresh_rectangle rgb24_1x1 0 2147483647 1 2 = .error .out_of_bounds := by
  refine ⟨by decide, by decide, by decide, by decide, by decide, by decide, by decide, by decide⟩

/-- C2, witness: the amended statement applies to a 2x2 bitmap and the
rectangle `(-1, 1, 5, 5)`, clipped to `(0, 1, 2, 1)`. -/
theorem refresh_rectangle_clips_to_intersection_witness :
    ClipInRange 2 2 (-1) 1 5 5 ∧
    clip_update_rectangle 2 2 (-1) 1 5 5 = some { x := 0, y := 1, w := 2, h := 1 } := by
  refine ⟨by decide, ?_⟩
  exact ((refresh_rectangle_clips_to_intersection rgb24_2x2 (-1) 1 5 5
    (by decide) (by decide) (by decide) (by decide) (by decide)).1 (by decide)).1

/-- C2, counterexample: with `width = rows = 1`, `x = INT_MIN`, `w = 0`, `y = 0`,
`h = 1`, neither `x + w` nor `y + h` overflows and the requested rectangle is
empty, yet `x + w - width` wraps around, the clipping yields the rectangle
`(0, 0, 1, 1)`, and the routine copies the pixel and invalidates that
rectangle. -/
theorem refresh_rectangle_clips_counterexample :
    fits32 (-2147483648 + 0) ∧ fits32 (0 + 1) ∧
    ¬ (max (-2147483648) 0 < min (-2147483648 + 0) (1 : Int) ∧ max 0 0 < min (0 + 1) (1 : Int)) ∧
    clip_update_rectangle 1 1 (-2147483648) 0 0 1 = some { x := 0, y := 0, w := 1, h := 1 } ∧
    ∃ res, gr_win32_surface_refresh_rectangle rgb24_1x1 (-2147483648) 0 0 1 = .ok res ∧
      res.invalidated = some { left := 0, top := 0, right := 1, bottom := 1 } ∧
      res.writes = [2, 1, 0] ∧
      rgb24_1x1.bgrBitmap.buffer = [0, 0, 0] ∧
      res.surface.bgrBitmap.buffer = [3, 2, 1] := by
  refine ⟨by decide, by decide, by decide, by decide, _, rfl, rfl, rfl, rfl, rfl⟩

/-! ## The event loop and the window procedure -/

/-- The search finds every entry of the table under its own code: no code occurs
twice. -/
theorem translate_key_of_mem :
    ∀ t ∈ key_translators, translate_key t.winkey key_translators = some t.grkey := by
  decide

/-- The search finds nothing for a code that no entry has. -/
theorem translate_key_none (wParam : Nat) (table : List Translator)
    (h : ∀ t ∈ table, wParam ≠ t.winkey) : translate_key wParam table = none := by
  induction table with
  | nil => rfl
  | cons t rest ih =>
    simp only [translate_key]
    rw [if_neg (h t (List.mem_cons_self _ _))]
    exact ih (fun u hu => h u (List.mem_cons_of_mem _ hu))

/-- The loop on a key-down message at the head of the queue. -/
theorem listen_event_key_step (code : grKey → Nat) (s : grWin32Surface) (allocs : List Bool)
    (ev : grEvent) (m : MSG) (queue : List MSG)
    (hm : m.message = WM_KEYDOWN ∨ m.message = WM_SYSKEYDOWN) :
    gr_win32_surface_listen_event code s allocs ev (m :: queue) =
      match translate_key m.wParam key_translators with
      | some grkey =>
        { surface := s, grevent := { ev with type := gr_event_key, key := code grkey },
          returned_event := true, dispatched := [], queue := queue, allocs := allocs }
      | none =>
        { gr_win32_surface_listen_event code s allocs ev queue with
          dispatched := m :: (gr_win32_surface_listen_event code s allocs ev queue).dispatched } := by
  have h1 : m.message ≠ WM_QUIT := by rcases hm with h | h <;> rw [h] <;> decide
  have h2 : m.message ≠ WM_RESIZE := by rcases hm with h | h <;> rw [h] <;> decide
  rw [gr_win32_surface_listen_event]
  rw [if_neg h1, if_neg h2, if_pos hm]

/-! ## The gray palette -/

/-- The ramp starts at 0. -/
theorem gray_ramp_zero (g : Nat) : gray_ramp g 0 = 0 := by
  unfold gray_ramp; simp

/-- The ramp ends at 255. -/
theorem gray_ramp_last (g : Nat) (hg : 2 ≤ g) : gray_ramp g (g - 1) = 255 := by
  unfold gray_ramp
  exact Nat.mul_div_cancel 255 (by omega)

/-- Every level of the ramp is at most 255. -/
theorem gray_ramp_le (g i : Nat) (hi : i < g) : gray_ramp g i ≤ 255 := by
  unfold gray_ramp
  have hpos : 0 < g - 1 ∨ g - 1 = 0 := by omega
  rcases hpos with hpos | hz
  · apply Nat.div_le_of_le_mul
    have : i ≤ g - 1 := by omega
    calc 255 * i ≤ 255 * (g - 1) := Nat.mul_le_mul_left _ this
      _ = (g - 1) * 255 := Nat.mul_comm _ _
  · rw [hz]; simp

/-- With at most 256 levels the ramp increases strictly. -/
theorem gray_ramp_strict (g i j : Nat) (hg : g ≤ 256) (hij : i < j) (hj : j < g) :
    gray_ramp g i < gray_ramp g j := by
  unfold gray_ramp
  have hpos : 0 < g - 1 := by omega
  have h1 : 255 * i + (g - 1) ≤ 255 * j := by
    have : 255 * (i + 1) ≤ 255 * j := Nat.mul_le_mul_left _ hij
    omega
  calc 255 * i / (g - 1) < 255 * i / (g - 1) + 1 := Nat.lt_succ_self _
    _ = (255 * i + (g - 1)) / (g - 1) := (Nat.add_div_right _ hpos).symm
    _ ≤ 255 * j / (g - 1) := Nat.div_le_div_right h1

/-- The byte the palette loop computes for entry `i`, with its 32-bit operations, C
division and cast to `unsigned char`, is the level of the ramp. -/
theorem palette_value (g i : Nat) (hg2 : 2 ≤ g) (hg : g ≤ 256) (hi : i < g) :
    (wrap32 (Int.tdiv (wrap32 ((i : Int) * 255)) (wrap32 ((g : Int) - 1))) % 256).toNat
      = gray_ramp g i := by
  have e1 : wrap32 ((i : Int) * 255) = ((255 * i : Nat) : Int) := by
    rw [wrap32_of_fits (by unfold fits32 INT_MIN INT_MAX; omega)]
    push_cast; ring
  have e2 : wrap32 ((g : Int) - 1) = ((g - 1 : Nat) : Int) := by
    rw [wrap32_of_fits (by unfold fits32 INT_MIN INT_MAX; omega)]
    omega
  have hq : ((255 * i : Nat) : Int) / ((g - 1 : Nat) : Int) =
      ((255 * i / (g - 1) : Nat) : Int) := (Int.ofNat_ediv _ _).symm
  rw [e1, e2, Int.tdiv_eq_ediv (Int.ofNat_nonneg _) (Int.ofNat_nonneg _), hq]
  have hle := gray_ramp_le g i hi
  unfold gray_ramp at hle ⊢
  generalize 255 * i / (g - 1) = q at hle ⊢
  rw [wrap32_of_fits (by unfold fits32 INT_MIN INT_MAX; omega)]
  omega

/-- The palette loop from entry `x` on, for `2 ≤ grays ≤ 256`: it runs without a
fault, fills the entries from `x` to `grays - 1` with the ramp and leaves the
others. -/
theorem gray_palette_spec (g : Nat) (hg2 : 2 ≤ g) (hg : g ≤ 256) (n : Nat) :
    ∀ (fuel x : Nat) (colors : List RGBQUAD), n ≤ fuel → x + n = g →
    ∃ colors1, gray_palette (g : Int) fuel (x : Int) colors = .ok colors1 ∧
      colors1.length = colors.length ∧
      (∀ i : Nat, x ≤ i → i < g → i < colors.length →
        colors1[i]? = some { rgbBlue := gray_ramp g i, rgbGreen := gray_ramp g i,
                             rgbRed := gray_ramp g i, rgbReserved := 0 }) ∧
      (∀ i : Nat, (i < x ∨ g ≤ i) → colors1[i]? = colors[i]?) := by
  induction n with
  | zero =>
    intro fuel x colors _ hx
    refine ⟨colors, ?_, rfl, ?_, fun i _ => rfl⟩
    · have : ¬ ((x : Int) < (g : Int)) := by omega
      cases fuel <;> simp [gray_palette, this]
    · intro i h1 h2; omega
  | succ n ih =>
    intro fuel x colors hfuel hx
    obtain ⟨fuel, rfl⟩ : ∃ f, fuel = f + 1 := ⟨fuel - 1, by omega⟩
    have hlt : (x : Int) < (g : Int) := by omega
    have hne : ¬ wrap32 ((g : Int) - 1) = 0 := by
      rw [wrap32_of_fits (by unfold fits32 INT_MIN INT_MAX; omega)]; omega
    have hin : ¬ ((x : Int) < 0 ∨ 256 ≤ (x : Int)) := by omega
    have hnext : wrap32 ((x : Int) + 1) = ((x + 1 : Nat) : Int) := by
      rw [wrap32_of_fits (by unfold fits32 INT_MIN INT_MAX; omega)]; push_cast; rfl
    obtain ⟨colors1, e1, len1, c1, u1⟩ := ih fuel (x + 1)
      (colors.set x { rgbBlue := gray_ramp g x, rgbGreen := gray_ramp g x,
                      rgbRed := gray_ramp g x, rgbReserved := 0 })
      (by omega) (by omega)
    refine ⟨colors1, ?_, by rw [len1, List.length_set], ?_, ?_⟩
    · simp only [gray_palette, hlt, hne, hin, if_true, if_false, hnext,
        palette_value g x hg2 hg (by omega), Int.toNat_ofNat]
      exact e1
    · intro i hi0 hi1 hi2
      by_cases hxi : i = x
      · subst hxi
        rw [u1 i (Or.inl (by omega)), List.getElem?_set_self hi2]
      · exact c1 i (by omega) hi1 (by rw [List.length_set]; exact hi2)
    · intro i hi
      rw [u1 i (by omega), List.getElem?_set_ne (by omega)]

/-! ## The event loop and the window procedure: the claims -/

/-- C3: for every `WM_KEYDOWN` or `WM_SYSKEYDOWN` message that
`gr_win32_surface_listen_event` takes from the queue: if its `wParam` is the
`winkey` of an entry of `key_translators` (the 24 virtual-key codes listed),
the routine returns at once with `grevent->type = gr_event_key` and
`grevent->key` the `grkey` of that entry (for instance `VK_BACK` gives
`grKeyBackSpace`, `VK_PRIOR` gives `grKeyPageUp`, `VK_F12` gives `grKeyF12`),
leaving the rest of the queue; if it is the `winkey` of no entry, no event is
returned for the message: it is dispatched and the loop goes on with the next
message. -/
theorem listen_event_translates_keys (code : grKey → Nat) (s : grWin32Surface)
    (allocs : List Bool) (ev : grEvent) (m : MSG) (queue : List MSG)
    (hm : m.message = WM_KEYDOWN ∨ m.message = WM_SYSKEYDOWN) :
    (∀ t ∈ key_translators, m.wParam = t.winkey →
      gr_win32_surface_listen_event code s allocs ev (m :: queue) =
        { surface := s, grevent := { ev with type := gr_event_key, key := code t.grkey },
          returned_event := true, dispatched := [], queue := queue, allocs := allocs }) ∧
    ((∀ t ∈ key_translators, m.wParam ≠ t.winkey) →
      gr_win32_surface_listen_event code s allocs ev (m :: queue) =
        { gr_win32_surface_listen_event code s allocs ev queue with
          dispatched := m :: (gr_win32_surface_listen_event code s allocs ev queue).dispatched }) ∧
    key_translators.map Translator.winkey =
      [VK_BACK, VK_TAB, VK_RETURN, VK_ESCAPE, VK_HOME, VK_LEFT, VK_UP, VK_RIGHT, VK_DOWN,
       VK_PRIOR, VK_NEXT, VK_END, VK_F1, VK_F2, VK_F3, VK_F4, VK_F5, VK_F6, VK_F7, VK_F8,
       VK_F9, VK_F10, VK_F11, VK_F12] ∧
    { winkey := VK_BACK, grkey := grKeyBackSpace } ∈ key_translators ∧
    { winkey := VK_PRIOR, grkey := grKeyPageUp } ∈ key_translators ∧
    { winkey := VK_F12, grkey := grKeyF12 } ∈ key_translators := by
  refine ⟨?_, ?_, rfl, by decide, by decide, by decide⟩
  · intro t ht hw
    rw [listen_event_key_step code s allocs ev m queue hm, hw, translate_key_of_mem t ht]
  · intro hnot
    rw [listen_event_key_step code s allocs ev m queue hm,
      translate_key_none m.wParam key_translators hnot]

/-- C3, witness: a `WM_SYSKEYDOWN` message carrying `VK_F12` is returned as a key
event and the message behind it stays in the queue. -/
theorem listen_event_translates_keys_witness :
    gr_win32_surface_listen_event (fun _ => 0) rgb24_1x1 [] ⟨gr_event_none, 0, 0, 0⟩
        [⟨1, WM_SYSKEYDOWN, VK_F12, 0⟩, ⟨1, WM_KEYDOWN, 65, 0⟩] =
      { surface := rgb24_1x1,
        grevent := { type := gr_event_key, key := 0, x := 0, y := 0 },
        returned_event := true, dispatched := [],
        queue := [⟨1, WM_KEYDOWN, 65, 0⟩], allocs := [] } :=
  (listen_event_translates_keys (fun _ => 0) rgb24_1x1 [] ⟨gr_event_none, 0, 0, 0⟩
    ⟨1, WM_SYSKEYDOWN, VK_F12, 0⟩ [⟨1, WM_KEYDOWN, 65, 0⟩] (Or.inr rfl)).1
    { winkey := VK_F12, grkey := grKeyF12 } (by decide) rfl

/-- C4: for every `WM_RESIZE` message carrying `(width, height)` (the low and
high words of `lParam`) that `gr_win32_surface_listen_event` takes from the
queue: the routine returns on that message (before dispatching anything) if and
only if `(width, height)` differs from the root bitmap's `(width, rows)` and
`gr_win32_surface_resize` returns the surface, and then the event has
`type = gr_event_resize`, `x = width`, `y = height`; when `(width, height)`
equals the current size no event is returned for the message,
`gr_win32_surface_resize` is not called (no allocation is asked for) and the
loop goes on with the surface unchanged. -/
theorem listen_event_resize (code : grKey → Nat) (s : grWin32Surface)
    (allocs : List Bool) (ev : grEvent) (m : MSG) (queue : List MSG)
    (hm : m.message = WM_RESIZE) :
    (((gr_win32_surface_listen_event code s allocs ev (m :: queue)).returned_event = true ∧
      (gr_win32_surface_listen_event code s allocs ev (m :: queue)).dispatched = []) ↔
      (((LOWORD m.lParam : Int) ≠ s.root.bitmap.width ∨
        (HIWORD m.lParam : Int) ≠ s.root.bitmap.rows) ∧
       (gr_win32_surface_resize s allocs (LOWORD m.lParam) (HIWORD m.lParam)).returned_surface
         = true)) ∧
    (((LOWORD m.lParam : Int) ≠ s.root.bitmap.width ∨
        (HIWORD m.lParam : Int) ≠ s.root.bitmap.rows) →
      (gr_win32_surface_resize s allocs (LOWORD m.lParam) (HIWORD m.lParam)).returned_surface
        = true →
      gr_win32_surface_listen_event code s allocs ev (m :: queue) =
        { surface :=
            (gr_win32_surface_resize s allocs (LOWORD m.lParam) (HIWORD m.lParam)).surface,
          grevent := { ev with type := gr_event_resize,
                               x := LOWORD m.lParam, y := HIWORD m.lParam },
          returned_event := true, dispatched := [], queue := queue,
          allocs :=
            (gr_win32_surface_resize s allocs (LOWORD m.lParam) (HIWORD m.lParam)).allocs }) ∧
    (((LOWORD m.lParam : Int) = s.root.bitmap.width ∧
        (HIWORD m.lParam : Int) = s.root.bitmap.rows) →
      gr_win32_surface_listen_event code s allocs ev (m :: queue) =
        { gr_win32_surface_listen_event code s allocs ev queue with
          dispatched :=
            m :: (gr_win32_surface_listen_event code s allocs ev queue).dispatched }) := by
  have h1 : m.message ≠ WM_QUIT := by rw [hm]; decide
  have hstep := gr_win32_surface_listen_event.eq_2 code s allocs ev m queue
  rw [if_neg h1, if_pos hm] at hstep
  simp only [] at hstep
  refine ⟨?_, ?_, ?_⟩
  · rw [hstep]
    by_cases hd : (LOWORD m.lParam : Int) ≠ s.root.bitmap.width ∨
        (HIWORD m.lParam : Int) ≠ s.root.bitmap.rows
    · rw [if_pos hd]
      by_cases hr : (gr_win32_surface_resize s allocs (LOWORD m.lParam)
          (HIWORD m.lParam)).returned_surface = true
      · rw [if_pos hr]
        exact ⟨fun _ => ⟨hd, hr⟩, fun _ => ⟨rfl, rfl⟩⟩
      · rw [if_neg hr]
        constructor
        · intro h; exact absurd h.2 (by simp)
        · intro h; exact absurd h.2 hr
    · rw [if_neg hd]
      constructor
      · intro h; exact absurd h.2 (by simp)
      · intro h; exact absurd h.1 hd
  · intro hd hr
    rw [hstep, if_pos hd, if_pos hr]
  · intro he
    rw [hstep, if_neg (by rw [not_or, not_not, not_not]; exact he)]

/-- C4, witness: a `WM_RESIZE` message asking for 2x3 on a 1x1 surface, with both
allocations succeeding, is returned as an event. -/
theorem listen_event_resize_witness :
    (gr_win32_surface_listen_event (fun _ => 0) rgb24_1x1 [true, true]
        ⟨gr_event_none, 0, 0, 0⟩ [⟨1, WM_RESIZE, 0, 2 + 65536 * 3⟩]).returned_event = true ∧
    (gr_win32_surface_listen_event (fun _ => 0) rgb24_1x1 [true, true]
        ⟨gr_event_none, 0, 0, 0⟩ [⟨1, WM_RESIZE, 0, 2 + 65536 * 3⟩]).dispatched = [] :=
  (listen_event_resize (fun _ => 0) rgb24_1x1 [true, true] ⟨gr_event_none, 0, 0, 0⟩
    ⟨1, WM_RESIZE, 0, 2 + 65536 * 3⟩ [] rfl).1.mpr ⟨by decide, by decide⟩

/-- C9: on `WM_CLOSE`, `Message_Process` posts exactly one message, `WM_CHAR`
with `wParam = grKeyEsc`, to the same window, calls `DefWindowProc` not at all
and returns 0; every `WM_CHAR` message `gr_win32_surface_listen_event` takes
from the queue is returned as an event with `type = gr_event_key` and
`key = wParam`; so the posted message is reported as a key event whose key is
`grKeyEsc`. -/
theorem close_posts_escape_key (code : grKey → Nat) (s : grWin32Surface) (client : RECT)
    (def_result : Int) (handle wParam lParam : Nat) (allocs : List Bool) (ev : grEvent)
    (queue : List MSG) :
    Message_Process code s client def_result handle WM_CLOSE wParam lParam =
      ([WinCall.GetProp handle, WinCall.PostMessage handle WM_CHAR (code grKeyEsc) 0], 0) ∧
    (∀ m : MSG, m.message = WM_CHAR →
      gr_win32_surface_listen_event code s allocs ev (m :: queue) =
        { surface := s, grevent := { ev with type := gr_event_key, key := m.wParam },
          returned_event := true, dispatched := [], queue := queue, allocs := allocs }) ∧
    gr_win32_surface_listen_event code s allocs ev
        ({ hwnd := handle, message := WM_CHAR, wParam := code grKeyEsc, lParam := 0 } :: queue) =
      { surface := s, grevent := { ev with type := gr_event_key, key := code grKeyEsc },
        returned_event := true, dispatched := [], queue := queue, allocs := allocs } := by
  have hchar : ∀ m : MSG, m.message = WM_CHAR →
      gr_win32_surface_listen_event code s allocs ev (m :: queue) =
        { surface := s, grevent := { ev with type := gr_event_key, key := m.wParam },
          returned_event := true, dispatched := [], queue := queue, allocs := allocs } := by
    intro m hm
    rw [gr_win32_surface_listen_event]
    rw [if_neg (by rw [hm]; decide), if_neg (by rw [hm]; decide),
      if_neg (by rw [hm]; decide), if_pos hm]
  refine ⟨rfl, hchar, hchar _ rfl⟩

/-! ## Initialisation and resizing: the claims -/

/-- C10: for every gray-mode bitmap with `2 ≤ grays ≤ 256` (and both calls of
`grNewBitmap` succeeding, so that the routine reaches the palette loop),
`gr_win32_surface_init` runs without a fault (every index written is below
256 and the divisor `grays - 1` is not zero) and leaves in `bmiColors[i]`, for
`0 ≤ i < grays`, `rgbRed = rgbGreen = rgbBlue = floor(255 * i / (grays - 1))`
and `rgbReserved = 0`, the entries from `grays` on being untouched; the ramp
is 0 at `i = 0` and 255 at `i = grays - 1`, every value is at most 255 (the
cast to a byte truncates nothing), and the values increase strictly with `i`. -/
theorem init_gray_palette_ramp (s : grWin32Surface) (bitmap : grBitmap) (rest : List Bool)
    (created : Nat)
    (hmode : bitmap.mode = gr_pixel_mode_gray)
    (hg2 : 2 ≤ bitmap.grays) (hg256 : bitmap.grays ≤ 256)
    (hlen : s.bmiColors.length = 256) :
    ∃ res, gr_win32_surface_init s bitmap (true :: true :: rest) created = .ok res ∧
      res.surface.bmiColors.length = 256 ∧
      (∀ i : Nat, (i : Int) < bitmap.grays →
        res.surface.bmiColors[i]? =
          some { rgbBlue := gray_ramp bitmap.grays.toNat i,
                 rgbGreen := gray_ramp bitmap.grays.toNat i,
                 rgbRed := gray_ramp bitmap.grays.toNat i,
                 rgbReserved := 0 }) ∧
      (∀ i : Nat, bitmap.grays ≤ (i : Int) → res.surface.bmiColors[i]? = s.bmiColors[i]?) ∧
      gray_ramp bitmap.grays.toNat 0 = 0 ∧
      gray_ramp bitmap.grays.toNat (bitmap.grays.toNat - 1) = 255 ∧
      (∀ i : Nat, (i : Int) < bitmap.grays → gray_ramp bitmap.grays.toNat i ≤ 255) ∧
      (∀ i j : Nat, i < j → (j : Int) < bitmap.grays →
        gray_ramp bitmap.grays.toNat i < gray_ramp bitmap.grays.toNat j) := by
  obtain ⟨g, hg⟩ : ∃ g : Nat, bitmap.grays = g := ⟨bitmap.grays.toNat, by omega⟩
  have hgn : bitmap.grays.toNat = g := by omega
  obtain ⟨colors1, e1, len1, c1, u1⟩ :=
    gray_palette_spec g (by omega) (by omega) g g 0 s.bmiColors le_rfl (by omega)
  rw [hgn]
  have hpal : gray_palette bitmap.grays bitmap.grays.toNat 0 s.bmiColors = .ok colors1 := by
    rw [hgn, hg]; exact e1
  have hinit : ∃ res, gr_win32_surface_init s bitmap (true :: true :: rest) created = .ok res ∧
      res.surface.bmiColors = colors1 := by
    unfold gr_win32_surface_init
    simp only [grNewBitmap, hmode, hpal]
    by_cases hc : created = 0
    · simp [hc]
    · simp [hc]
  obtain ⟨res, e, hcol⟩ := hinit
  refine ⟨res, e, by rw [hcol, len1, hlen], ?_, ?_, gray_ramp_zero g,
    gray_ramp_last g (by omega), ?_, ?_⟩
  · intro i hi
    rw [hcol]
    exact c1 i (by omega) (by omega) (by omega)
  · intro i hi
    rw [hcol]
    exact u1 i (Or.inr (by omega))
  · intro i hi
    exact gray_ramp_le g i (by omega)
  · intro i j hij hj
    exact gray_ramp_strict g i j (by omega) hij (by omega)

/-- C10, witness: with 4 grays, entry 1 of the palette is the gray level 85. -/
theorem init_gray_palette_ramp_witness :
    ∃ res, gr_win32_surface_init rgb24_1x1 (sample_bitmap gr_pixel_mode_gray 4)
        [true, true] 7 = .ok res ∧
      res.surface.bmiColors[1]? =
        some { rgbBlue := 85, rgbGreen := 85, rgbRed := 85, rgbReserved := 0 } := by
  obtain ⟨res, e, _, hc, _⟩ := init_gray_palette_ramp rgb24_1x1
    (sample_bitmap gr_pixel_mode_gray 4) [] 7 rfl (by decide) (by decide)
    (List.length_replicate _ _)
  exact ⟨res, e, hc 1 (by decide)⟩

/-- The modes the `switch` of `gr_win32_surface_init` handles: when both calls
of `grNewBitmap` and the window creation succeed, the routine returns the
surface for mono, for 24-bit RGB, and for 8-bit gray whose palette loop runs
without a fault (`grays ≤ 0`, where it does nothing, or `2 ≤ grays ≤ 256`). -/
theorem init_returns_surface_for_handled_modes (s : grWin32Surface) (bitmap : grBitmap)
    (rest : List Bool) (created : Nat) (hcreated : created ≠ 0)
    (hmode : bitmap.mode = gr_pixel_mode_mono ∨ bitmap.mode = gr_pixel_mode_rgb24 ∨
      (bitmap.mode = gr_pixel_mode_gray ∧
        (bitmap.grays ≤ 0 ∨ (2 ≤ bitmap.grays ∧ bitmap.grays ≤ 256)))) :
    ∃ res, gr_win32_surface_init s bitmap (true :: true :: rest) created = .ok res ∧
      res.returned_surface = true ∧ res.surface.window = created := by
  rcases hmode with hm | hm | ⟨hm, hg0 | ⟨hg2, hg256⟩⟩
  · unfold gr_win32_surface_init
    simp [grNewBitmap, hm, hcreated]
  · unfold gr_win32_surface_init
    simp [grNewBitmap, hm, hcreated]
  · have hgn : bitmap.grays.toNat = 0 := by omega
    have hpal : gray_palette bitmap.grays bitmap.grays.toNat 0 s.bmiColors =
        .ok s.bmiColors := by
      rw [hgn]
      simp only [gray_palette]
      rw [if_neg (by omega)]
    unfold gr_win32_surface_init
    simp [grNewBitmap, hm, hpal, hcreated]
  · obtain ⟨g, hg⟩ : ∃ g : Nat, bitmap.grays = g := ⟨bitmap.grays.toNat, by omega⟩
    have hgn : bitmap.grays.toNat = g := by omega
    obtain ⟨colors1, e1, -, -, -⟩ :=
      gray_palette_spec g (by omega) (by omega) g g 0 s.bmiColors le_rfl (by omega)
    have hpal : gray_palette bitmap.grays bitmap.grays.toNat 0 s.bmiColors = .ok colors1 := by
      rw [hgn, hg]; exact e1
    unfold gr_win32_surface_init
    simp [grNewBitmap, hm, hpal, hcreated]

/-- On a 2x2 request the routine returns the surface for gray with 4 grays. -/
theorem init_returns_surface_for_handled_modes_witness :
    ∃ res, gr_win32_surface_init rgb24_1x1 (sample_bitmap gr_pixel_mode_gray 4)
        [true, true] 7 = .ok res ∧ res.returned_surface = true ∧ res.surface.window = 7 :=
  init_returns_surface_for_handled_modes rgb24_1x1 (sample_bitmap gr_pixel_mode_gray 4)
    [] 7 (by decide) (Or.inr (Or.inr ⟨rfl, Or.inr ⟨by decide, by decide⟩⟩))

/-- C5, the failing input: a 2x2 bitmap of mode 32-bit RGB, one of the spec's
fixed set of pixel formats.  Both calls of `grNewBitmap` succeed and
`CreateWindow` would give the handle 7, yet `gr_win32_surface_init` takes the
`default` case of its `switch` and returns 0, against the comment of lines
451-452 ("under Win32, we support all modes"); the same request in 24-bit RGB
returns the surface. -/
theorem init_rgb32_returns_zero :
    (sample_bitmap gr_pixel_mode_rgb32 256).mode = gr_pixel_mode_rgb32 ∧
    (grNewBitmap [true, true] gr_pixel_mode_rgb32 256 2 2
      (sample_bitmap gr_pixel_mode_rgb32 256)).1 = 0 ∧
    (grNewBitmap [true] gr_pixel_mode_rgb32 256 2 2 rgb24_1x1.bgrBitmap).1 = 0 ∧
    (∃ res, gr_win32_surface_init rgb24_1x1 (sample_bitmap gr_pixel_mode_rgb32 256)
        [true, true] 7 = .ok res ∧
      res.returned_surface = false ∧ res.allocs = []) ∧
    (∃ res, gr_win32_surface_init rgb24_1x1 (sample_bitmap gr_pixel_mode_rgb24 256)
        [true, true] 7 = .ok res ∧
      res.returned_surface = true) :=
  ⟨rfl, rfl, rfl, ⟨_, rfl, rfl, rfl⟩, ⟨_, rfl, rfl⟩⟩

/-- Size agreement on the paths that succeed: after a `gr_win32_surface_init`
that returns the surface, and after a `gr_win32_surface_resize` that returns
the surface, the shadow bitmap has the root bitmap's width, rows, pitch and
mode and the header's `biWidth` and `biHeight` are the root bitmap's width and
rows. -/
theorem size_agreement_after_success (s : grWin32Surface) (bitmap : grBitmap)
    (allocs : List Bool) (created : Nat) (width height : Int) :
    (∀ res, gr_win32_surface_init s bitmap allocs created = .ok res →
      res.returned_surface = true → size_agreement res.surface) ∧
    ((gr_win32_surface_resize s allocs width height).returned_surface = true →
      size_agreement (gr_win32_surface_resize s allocs width height).surface) := by
  constructor
  · intro res hres hret
    rcases allocs with _ | ⟨a, _ | ⟨b, rest⟩⟩
    · simp [gr_win32_surface_init, grNewBitmap] at hres
      subst hres; simp at hret
    · cases a <;> simp [gr_win32_surface_init, grNewBitmap] at hres <;>
        (subst hres; simp at hret)
    · cases a
      · simp [gr_win32_surface_init, grNewBitmap] at hres
        subst hres; simp at hret
      · cases b
        · simp [gr_win32_surface_init, grNewBitmap] at hres
          subst hres; simp at hret
        · unfold gr_win32_surface_init at hres
          simp only [grNewBitmap] at hres
          cases hm : bitmap.mode <;> simp only [hm] at hres
          · by_cases hc : created = 0
            · simp [hc] at hres; subst hres; simp at hret
            · simp [hc] at hres; subst hres; simp [size_agreement]
          · cases hp : gray_palette bitmap.grays bitmap.grays.toNat 0 s.bmiColors with
            | error e => simp [hp] at hres
            | ok colors =>
              by_cases hc : created = 0
              · simp [hp, hc] at hres; subst hres; simp at hret
              · simp [hp, hc] at hres; subst hres; simp [size_agreement]
          · by_cases hc : created = 0
            · simp [hc] at hres; subst hres; simp at hret
            · simp [hc] at hres; subst hres; simp [size_agreement]
          · simp at hres; subst hres; simp at hret
  · intro hret
    rcases allocs with _ | ⟨a, _ | ⟨b, rest⟩⟩
    · simp [gr_win32_surface_resize, grNewBitmap] at hret
    · cases a <;> simp [gr_win32_surface_resize, grNewBitmap] at hret
    · cases a
      · simp [gr_win32_surface_resize, grNewBitmap] at hret
      · cases b
        · simp [gr_win32_surface_resize, grNewBitmap] at hret
        · simp [gr_win32_surface_resize, grNewBitmap, size_agreement]

/-- Size agreement holds after a 2x2 surface is resized to 4x4 with both
allocations succeeding. -/
theorem size_agreement_after_success_witness :
    size_agreement (gr_win32_surface_resize rgb24_2x2 [true, true] 4 4).surface :=
  (size_agreement_after_success rgb24_2x2 (sample_bitmap gr_pixel_mode_rgb24 0)
    [true, true] 7 4 4).2 rfl

/-- C8, the failing input: a well-formed 2x2 24-bit surface is resized to 4x4,
the first call of `grNewBitmap` (root bitmap) succeeds and the second (shadow
bitmap) fails.  `gr_win32_surface_resize` returns 0 and breaks the size
agreement the surface had: it leaves the root bitmap
4x4 with pitch -12 while the shadow bitmap is still 2x2 with pitch -6 and the
header still says 2x2; a refresh of the whole surface then writes outside the
shadow buffer. -/
theorem resize_failure_breaks_size_agreement :
    SurfaceOK rgb24_2x2 3 ∧ size_agreement rgb24_2x2 ∧
    ¬ size_agreement (gr_win32_surface_resize rgb24_2x2 [true, false] 4 4).surface ∧
    rgb24_2x2.bmiHeader.biWidth = 2 ∧ rgb24_2x2.bmiHeader.biHeight = 2 ∧
    (gr_win32_surface_resize rgb24_2x2 [true, false] 4 4).returned_surface = false ∧
    (gr_win32_surface_resize rgb24_2x2 [true, false] 4 4).surface.root.bitmap.width = 4 ∧
    (gr_win32_surface_resize rgb24_2x2 [true, false] 4 4).surface.root.bitmap.rows = 4 ∧
    (gr_win32_surface_resize rgb24_2x2 [true, false] 4 4).surface.root.bitmap.pitch = -12 ∧
    (gr_win32_surface_resize rgb24_2x2 [true, false] 4 4).surface.bgrBitmap.width = 2 ∧
    (gr_win32_surface_resize rgb24_2x2 [true, false] 4 4).surface.bgrBitmap.rows = 2 ∧
    (gr_win32_surface_resize rgb24_2x2 [true, false] 4 4).surface.bgrBitmap.pitch = -6 ∧
    (gr_win32_surface_resize rgb24_2x2 [true, false] 4 4).surface.bmiHeader.biWidth = 2 ∧
    (gr_win32_surface_resize rgb24_2x2 [true, false] 4 4).surface.bmiHeader.biHeight = 2 ∧
    gr_win32_surface_refresh_rectangle
      (gr_win32_surface_resize rgb24_2x2 [true, false] 4 4).surface 0 0 4 4 =
        .error .out_of_bounds := by
  refine ⟨by decide, by decide, by decide, rfl, rfl, rfl, rfl, rfl, by decide, rfl, rfl, rfl,
    rfl, rfl, by decide⟩

/-! ## The swap of the 24-bit branch: the claim -/

/-- Two reads that agree give the same list entries. -/
theorem getElem?_of_rd (a b : List Nat) (i j : Nat) (h : rd a (i : Int) = rd b (j : Int)) :
    a[i]? = b[j]? := by
  unfold rd at h
  rw [if_neg (by omega), if_neg (by omega)] at h
  simp only [Int.toNat_ofNat] at h
  cases ha : a[i]? <;> cases hb : b[j]? <;> rw [ha, hb] at h <;> simp_all

/-- The swap of positions inside 3-byte pixels is its own inverse. -/
theorem swap3_swap3 (d : Int) : swap3 (swap3 d) = d := by
  unfold swap3; omega

/-- C11: the RGB<->BGR swap is its own inverse.  For every row of `w` 3-byte
pixels, the pixel loop of `gr_win32_surface_refresh_rectangle` (`out[0] = in[2]`,
`out[1] = in[1]`, `out[2] = in[0]`), run with any fuel of at least `w` into any
output row of the same size, returns; each output pixel holds the input pixel's
bytes in reverse order, its middle byte being the input's middle byte; and the
same loop run on that output gives back the original row. -/
theorem bgr_swap_is_involution (row out1 out2 : List Nat) (w fuel : Nat)
    (hrow : row.length = 3 * w) (hout1 : out1.length = 3 * w) (hout2 : out2.length = 3 * w)
    (hfuel : w ≤ fuel) :
    ∃ st1, bgr_pixels row fuel { shadow := out1, reads := [], writes := [] } 0 (3 * (w : Int)) 0
        = .ok st1 ∧
      st1.shadow.length = 3 * w ∧
      (∀ c : Nat, c < w →
        st1.shadow[3 * c]? = row[3 * c + 2]? ∧
        st1.shadow[3 * c + 1]? = row[3 * c + 1]? ∧
        st1.shadow[3 * c + 2]? = row[3 * c]?) ∧
      ∃ st2, bgr_pixels st1.shadow fuel { shadow := out2, reads := [], writes := [] } 0
          (3 * (w : Int)) 0 = .ok st2 ∧
        st2.shadow = row := by
  obtain ⟨st1, e1, len1, c1, -, -⟩ := bgr_pixels_spec row w fuel
    { shadow := out1, reads := [], writes := [] } 0 0 hfuel le_rfl
    (by rw [hrow]; push_cast; omega) le_rfl (by simp only; rw [hout1]; push_cast; omega)
  simp only [zero_add] at e1 c1
  have len1' : st1.shadow.length = 3 * w := by rw [len1]; exact hout1
  obtain ⟨st2, e2, len2, c2, -, -⟩ := bgr_pixels_spec st1.shadow w fuel
    { shadow := out2, reads := [], writes := [] } 0 0 hfuel le_rfl
    (by rw [len1']; push_cast; omega) le_rfl (by simp only; rw [hout2]; push_cast; omega)
  simp only [zero_add] at e2 c2
  have hpix : ∀ (c k : Nat), c < w → k < 3 →
      st1.shadow[3 * c + k]? = row[3 * c + (2 - k)]? := by
    intro c k hc hk
    apply getElem?_of_rd
    rw [c1, if_pos (by push_cast; omega)]
    congr 1
    unfold swap3
    push_cast
    omega
  refine ⟨st1, e1, len1', ?_, st2, e2, ?_⟩
  · intro c hc
    exact ⟨hpix c 0 hc (by omega), hpix c 1 hc (by omega), hpix c 2 hc (by omega)⟩
  · apply List.ext_getElem?
    intro n
    apply getElem?_of_rd
    rw [c2]
    by_cases hn : n < 3 * w
    · rw [if_pos (by omega), sub_zero, c1,
        if_pos (by unfold swap3; omega), sub_zero, swap3_swap3]
    · have h1 : st2.shadow.length = 3 * w := by rw [len2]; exact hout2
      rw [if_neg (by omega)]
      unfold rd
      rw [if_neg (by omega), if_neg (by omega)]
      simp only [Int.toNat_ofNat]
      rw [List.getElem?_eq_none (by rw [hout2]; omega), List.getElem?_eq_none (by rw [hrow]; omega)]

/-- C11, witness: two pixels, swapped twice, are back in their order. -/
theorem bgr_swap_is_involution_witness :
    ∃ st1, bgr_pixels [1, 2, 3, 4, 5, 6] 6 { shadow := [0, 0, 0, 0, 0, 0], reads := [], writes := [] }
        0 (3 * ((2 : Nat) : Int)) 0 = .ok st1 ∧
      ∃ st2, bgr_pixels st1.shadow 6 { shadow := [9, 9, 9, 9, 9, 9], reads := [], writes := [] } 0
          (3 * ((2 : Nat) : Int)) 0 = .ok st2 ∧
        st2.shadow = [1, 2, 3, 4, 5, 6] := by
  obtain ⟨st1, e1, _, _, st2, e2, h⟩ := bgr_swap_is_involution [1, 2, 3, 4, 5, 6]
    [0, 0, 0, 0, 0, 0] [9, 9, 9, 9, 9, 9] 2 6 rfl rfl rfl (by decide)
  exact ⟨st1, e1, st2, e2, h⟩

end GrWin32
